import Mathlib

/-!
Shallow embedding of the webplanner backend (src/backend/database.py,
src/backend/main.py, src/backend/models.py) in Lean 4.

Conventions of the embedding:
* MongoDB collections are lists of documents in insertion order; a document
  is an association list of field name to BSON-like value.
* `find_one` returns the first matching document, `update_one` / `delete_one`
  act on the first matching document, `update_many` on all matching ones.
* Wall-clock time (`_dt_now_iso`) and generated identifiers (`uuid.uuid4`,
  ObjectIds assigned by `insert_one`) are passed as explicit parameters.
* Python exceptions that escape a function (an unbound name such as
  `timedelta`) are modelled with `Except PyError`.
-/

namespace WebPlanner

/-- A naive `datetime.datetime` value as produced by
`datetime.strptime(date_str, "%Y-%m-%d")` and by task due dates. -/
structure PyDateTime where
  year : Nat
  month : Nat
  day : Nat
  hour : Nat := 0
  minute : Nat := 0
  second : Nat := 0
deriving DecidableEq, Repr

/-- Strict lexicographic order on naive datetimes (Python `datetime <`). -/
def dtLt (a b : PyDateTime) : Bool :=
  decide (a.year < b.year ∨ (a.year = b.year ∧
    (a.month < b.month ∨ (a.month = b.month ∧
      (a.day < b.day ∨ (a.day = b.day ∧
        (a.hour < b.hour ∨ (a.hour = b.hour ∧
          (a.minute < b.minute ∨ (a.minute = b.minute ∧
            a.second < b.second))))))))))

/-- Non-strict order on naive datetimes (Python `datetime <=`). -/
def dtLe (a b : PyDateTime) : Bool :=
  dtLt a b || decide (a = b)

/-- BSON-like values stored in documents. `oid` is a `bson.ObjectId`
(kept as its 24-character hex string). -/
inductive Value where
  | null : Value
  | bool (b : Bool) : Value
  | int (n : Int) : Value
  | str (s : String) : Value
  | dtime (t : PyDateTime) : Value
  | oid (s : String) : Value
  | arr (xs : List Value) : Value
  | doc (fields : List (String × Value)) : Value
deriving Repr

mutual

/-- Structural equality test on BSON-like values. -/
def Value.beq : Value → Value → Bool
  | .null, .null => true
  | .bool a, .bool b => a == b
  | .int a, .int b => a == b
  | .str a, .str b => a == b
  | .dtime a, .dtime b => a == b
  | .oid a, .oid b => a == b
  | .arr as, .arr bs => beqValueList as bs
  | .doc as, .doc bs => beqFieldList as bs
  | _, _ => false

/-- Elementwise equality test on value arrays. -/
def beqValueList : List Value → List Value → Bool
  | [], [] => true
  | a :: as, b :: bs => Value.beq a b && beqValueList as bs
  | _, _ => false

/-- Elementwise equality test on field lists. -/
def beqFieldList : List (String × Value) → List (String × Value) → Bool
  | [], [] => true
  | (k, a) :: as, (l, b) :: bs =>
    k == l && Value.beq a b && beqFieldList as bs
  | _, _ => false

end

instance : BEq Value := ⟨Value.beq⟩

/-- A MongoDB document: field names with values, in insertion order. -/
abbrev Doc : Type := List (String × Value)

/-- First value stored under key `k` (Python dict / BSON field access). -/
def getField (d : Doc) (k : String) : Option Value :=
  match d with
  | [] => none
  | (k', v) :: rest => if k' = k then some v else getField rest k

/-- Set key `k` to `v`: replace the first occurrence, or append if absent
(Python `d[k] = v`, Mongo `$set` for one field). -/
def setField (d : Doc) (k : String) (v : Value) : Doc :=
  match d with
  | [] => [(k, v)]
  | (k', v') :: rest =>
    if k' = k then (k', v) :: rest else (k', v') :: setField rest k v

/-- Set key `k` to `v` only if absent (Python `dict.setdefault`). -/
def setDefault (d : Doc) (k : String) (v : Value) : Doc :=
  match getField d k with
  | some _ => d
  | none => d ++ [(k, v)]

/-- Remove key `k` (Python `dict.pop(k, None)` on a dict with unique keys). -/
def popKey (d : Doc) (k : String) : Doc :=
  d.filter (fun kv => kv.1 != k)

/-- Apply a `$set` update document: set each listed field in order. -/
def applySet (d : Doc) (us : Doc) : Doc :=
  us.foldl (fun acc kv => setField acc kv.1 kv.2) d

/-- `collection.find_one(filter)`: first document matching the filter. -/
def findOne (coll : List Doc) (p : Doc → Bool) : Option Doc :=
  coll.find? p

/-- Mongo equality filter `{k: s}` against a string value. -/
def fieldEqStr (t : Doc) (k s : String) : Bool :=
  match getField t k with
  | some (.str v) => v == s
  | _ => false

/-- Mongo equality filter `{k: oid}` against an ObjectId value. -/
def fieldEqOid (t : Doc) (k s : String) : Bool :=
  match getField t k with
  | some (.oid v) => v == s
  | _ => false

/-- Result counts of `collection.update_one`. -/
structure UpdateResult where
  matched : Nat
  modified : Nat
deriving DecidableEq, Repr

/-- `collection.update_one(filter, {"$set": us})`: applies `us` to the first
matching document; `modified` counts whether the document actually changed. -/
def updateOne (coll : List Doc) (p : Doc → Bool) (us : Doc) :
    List Doc × UpdateResult :=
  match coll with
  | [] => ([], ⟨0, 0⟩)
  | d :: rest =>
    if p d then
      let d' := applySet d us
      (d' :: rest, ⟨1, if Value.beq (.doc d') (.doc d) then 0 else 1⟩)
    else
      let (rest', r) := updateOne rest p us
      (d :: rest', r)

/-- `collection.update_many(filter, {"$set": us})`: applies `us` to every
matching document, returning the new collection and the matched count. -/
def updateMany (coll : List Doc) (p : Doc → Bool) (us : Doc) :
    List Doc × Nat :=
  ((coll.map (fun d => if p d then applySet d us else d)),
   (coll.filter p).length)

/-- `collection.delete_one(filter)`: removes the first matching document,
returning the new collection and the deleted count. -/
def deleteOne (coll : List Doc) (p : Doc → Bool) : List Doc × Nat :=
  match coll with
  | [] => ([], 0)
  | d :: rest =>
    if p d then (rest, 1)
    else
      let (rest', n) := deleteOne rest p
      (d :: rest', n)

/-- The persistent store seen by `DBManager`: the `users` and `tasks`
collections, plus the `files` collection used by the attachment-registry
record methods invoked from `main.py`. -/
structure DB where
  users : List Doc
  tasks : List Doc
  files : List Doc

/-! ### Identity store (`DBManager` user methods, database.py lines 27-54) -/

/-- `DBManager.get_user`: `users.find_one({"username": username})`. -/
def get_user (db : DB) (username : String) : Option Doc :=
  findOne db.users (fun u => fieldEqStr u "username" username)

/-- `DBManager.get_user_by_token`: `users.find_one({"token": token})`. -/
def get_user_by_token (db : DB) (token : String) : Option Doc :=
  findOne db.users (fun u => fieldEqStr u "token" token)

/-- `DBManager.create_user`: refuses duplicate usernames, otherwise inserts
a user document with the derived credential hash, an empty task list and an
EMPTY token string. `hashFn` stands for `hash_utils.hash_password` (an opaque
one-way function); `newId` is the ObjectId assigned by `insert_one`. Returns
`str(res.inserted_id)` on success, `None` for duplicates. -/
def create_user (db : DB) (username password : String)
    (hashFn : String → String) (newId : String) : Option String × DB :=
  match get_user db username with
  | some _ => (none, db)
  | none =>
    let udoc : Doc :=
      [("_id", .oid newId),
       ("username", .str username),
       ("password_hash", .str (hashFn password)),
       ("tasks", .arr []),
       ("token", .str "")]
    (some newId, { db with users := db.users ++ [udoc] })

/-- Result of `DBManager.update_user_token`. -/
inductive TokenResult where
  | err (msg : String) : TokenResult
  | ok (token : String) : TokenResult
deriving DecidableEq, Repr

/-- `DBManager.update_user_token`: generates a fresh token (`freshToken`
stands for `str(uuid.uuid4())`) and overwrites the stored token of the first
user matching the username, unconditionally. -/
def update_user_token (db : DB) (username : String) (freshToken : String) :
    TokenResult × DB :=
  let (users', r) :=
    updateOne db.users (fun u => fieldEqStr u "username" username)
      [("token", .str freshToken)]
  let db' := { db with users := users' }
  if r.matched ≠ 1 then (.err "User not found", db')
  else (.ok freshToken, db')

/-! ### Task repository (`DBManager` task methods, database.py lines 56-118) -/

/-- Hex digit test used by `bson.ObjectId` string validation. -/
def isHexChar (c : Char) : Bool :=
  c.isDigit || (('a' ≤ c && c ≤ 'f') || ('A' ≤ c && c ≤ 'F'))

/-- `bson.ObjectId(task_id)`: accepts exactly the 24-character hex strings,
raising `InvalidId` (modelled as `none`) otherwise. Case normalization of
the hex digits is elided: stored ids are produced by `insert_one` and
round-trip through `str()` unchanged. -/
def parseObjectId (s : String) : Option String :=
  if s.length == 24 && s.data.all isHexChar then some s else none

/-- The ownership filter `{"_id": oid, "user_id": user_id}` used by
`edit_task` / `delete_task`. -/
def taskOwnerFilter (oid user_id : String) (t : Doc) : Bool :=
  fieldEqOid t "_id" oid && fieldEqStr t "user_id" user_id

/-- `DBManager.create_task`: copies the payload, forces `user_id` to the
caller, fills `done` / `created_at` / `updated_at` defaults if absent, and
inserts. `newId` is the ObjectId assigned by `insert_one`, `now` the value
of `_dt_now_iso()`. Returns `str(res.inserted_id)`. -/
def create_task (db : DB) (user_id : String) (task_data : Doc)
    (newId : String) (now : String) : String × DB :=
  let d0 := setField task_data "user_id" (.str user_id)
  let d1 := setDefault d0 "done" (.bool false)
  let d2 := setDefault d1 "created_at" (.str now)
  let d3 := setDefault d2 "updated_at" (.str now)
  let d4 := setDefault d3 "_id" (.oid newId)
  (newId, { db with tasks := db.tasks ++ [d4] })

/-- Result dictionary of `DBManager.edit_task`. -/
inductive EditResult where
  | err (msg : String) : EditResult
  | ok (matched modified : Nat) : EditResult
deriving DecidableEq, Repr

/-- `DBManager.edit_task`: parses the id (else `"Invalid task_id"`), pops
`user_id` and `_id` from the updates, stamps `updated_at = now`, then runs a
single ownership-matched `update_one`; zero matches yields
`"Task not found (or not yours)"`. -/
def edit_task (db : DB) (user_id task_id : String) (updates : Doc)
    (now : String) : EditResult × DB :=
  match parseObjectId task_id with
  | none => (.err "Invalid task_id", db)
  | some oid =>
    let us0 := popKey (popKey updates "user_id") "_id"
    let us := setField us0 "updated_at" (.str now)
    let (tasks', r) := updateOne db.tasks (taskOwnerFilter oid user_id) us
    let db' := { db with tasks := tasks' }
    if r.matched = 0 then (.err "Task not found (or not yours)", db')
    else (.ok r.matched r.modified, db')

/-- Result dictionary of `DBManager.delete_task`. -/
inductive DeleteResult where
  | err (msg : String) : DeleteResult
  | ok (deleted : Nat) : DeleteResult
deriving DecidableEq, Repr

/-- `DBManager.delete_task`: parses the id (else `"Invalid task_id"`), then
runs a single ownership-matched `delete_one`; zero deletions yields
`"Task not found (or not yours)"`. -/
def delete_task (db : DB) (user_id task_id : String) :
    DeleteResult × DB :=
  match parseObjectId task_id with
  | none => (.err "Invalid task_id", db)
  | some oid =>
    let (tasks', n) := deleteOne db.tasks (taskOwnerFilter oid user_id)
    let db' := { db with tasks := tasks' }
    if n = 0 then (.err "Task not found (or not yours)", db')
    else (.ok n, db')

/-! ### View resolver (`DBManager.get_tasks_view`, database.py lines 130-174)

database.py imports only `datetime` from the `datetime` module (line 9), yet
lines 146 and 150-151 use `timedelta`; evaluating those branches raises
`NameError` in Python. -/

/-- A Python exception escaping a function. -/
inductive PyError where
  | nameError (ident : String) : PyError
deriving DecidableEq, Repr

/-- `str.lower()`, characterwise. -/
def strLower (s : String) : String :=
  String.mk (s.data.map Char.toLower)

/-- Gregorian leap-year rule (as in Python's `calendar`/`datetime`). -/
def isLeapYear (y : Nat) : Bool :=
  y % 4 == 0 && (y % 100 != 0 || y % 400 == 0)

/-- Number of days in a month of a given year. -/
def daysInMonth (y m : Nat) : Nat :=
  if m = 2 then (if isLeapYear y then 29 else 28)
  else if m = 4 ∨ m = 6 ∨ m = 9 ∨ m = 11 then 30
  else 31

/-- Split a character list on `-` (the separator of `%Y-%m-%d`). -/
def splitOnDash : List Char → List (List Char)
  | [] => [[]]
  | c :: rest =>
    let r := splitOnDash rest
    if c = '-' then [] :: r
    else
      match r with
      | [] => [[c]]
      | g :: gs => (c :: g) :: gs

/-- Decimal value of a digit list. -/
def digitsToNat (cs : List Char) : Nat :=
  cs.foldl (fun n c => 10 * n + (c.toNat - 48)) 0

/-- `datetime.strptime(date_str, "%Y-%m-%d")` restricted to the
zero-padded `YYYY-MM-DD` shape (the HTTP boundary already enforces
`^\d\x7b4\x7d-\d\x7b2\x7d-\d\x7b2\x7d$`): yields midnight of a valid
calendar date, `none` on `ValueError`. -/
def parseDate (s : String) : Option PyDateTime :=
  match splitOnDash s.data with
  | [ys, ms, ds] =>
    if ys.length == 4 && ms.length == 2 && ds.length == 2 &&
       ys.all Char.isDigit && ms.all Char.isDigit && ds.all Char.isDigit then
      let y := digitsToNat ys
      let m := digitsToNat ms
      let d := digitsToNat ds
      if 1 ≤ m && m ≤ 12 && 1 ≤ d && d ≤ daysInMonth y m then
        some { year := y, month := m, day := d }
      else none
    else none
  | _ => none

/-- The range computation of `get_tasks_view` (database.py lines 142-166):
normalizes the view name (`(view or "day").lower()`), then computes the
half-open `[start, end)` range. The `day` and `week` branches evaluate the
unbound name `timedelta` and therefore raise `NameError`; an unknown view
yields no range (`none`). -/
def viewRange (view : String) (base : PyDateTime) :
    Except PyError (Option (PyDateTime × PyDateTime)) :=
  let v := strLower (if view == "" then "day" else view)
  if v == "day" then
    .error (.nameError "timedelta")
  else if v == "week" then
    .error (.nameError "timedelta")
  else if v == "month" then
    let start := { base with day := 1 }
    if start.month = 12 then
      .ok (some (start, { start with year := start.year + 1, month := 1 }))
    else
      .ok (some (start, { start with month := start.month + 1 }))
  else if v == "year" then
    let start := { base with month := 1, day := 1 }
    .ok (some (start, { start with year := start.year + 1 }))
  else
    .ok none

/-- The query filter of `get_tasks_view`:
`{"user_id": user_id, "due_date": {"$gte": start, "$lt": end}}`. A missing,
null or non-datetime `due_date` never matches a datetime range. -/
def dueInRange (user_id : String) (s e : PyDateTime) (t : Doc) : Bool :=
  fieldEqStr t "user_id" user_id &&
  (match getField t "due_date" with
   | some (.dtime d) => dtLe s d && dtLt d e
   | _ => false)

/-- Sort key for `.sort("due_date", 1)`: BSON orders null/missing before
datetimes. -/
def dueLe (a b : Doc) : Bool :=
  match getField a "due_date", getField b "due_date" with
  | some (.dtime x), some (.dtime y) => dtLe x y
  | some (.dtime _), _ => false
  | _, _ => true

/-- Stable insertion into a list sorted by `dueLe`. -/
def insertByDue (d : Doc) : List Doc → List Doc
  | [] => [d]
  | e :: rest => if dueLe e d then e :: insertByDue d rest else d :: e :: rest

/-- Stable sort by ascending `due_date` (`.sort("due_date", 1)`). -/
def sortByDue (l : List Doc) : List Doc :=
  l.foldr insertByDue []

/-- `DBManager.get_tasks_view`: parses the anchor date (a `ValueError`
yields `[]`), resolves the view range, and returns the caller's tasks whose
`due_date` lies in `[start, end)`, ascending by due date. The `day` and
`week` branches raise `NameError` (unbound `timedelta`). Serialization of
the result documents (`_serialize_task`) is elided. -/
def get_tasks_view (db : DB) (user_id view date_str : String) :
    Except PyError (List Doc) :=
  match parseDate date_str with
  | none => .ok []
  | some base =>
    match viewRange view base with
    | .error e => .error e
    | .ok none => .ok []
    | .ok (some (s, e)) =>
      .ok (sortByDue (db.tasks.filter (dueInRange user_id s e)))

/-! ### Subtask manager

`main.py` (lines 117-151) calls `db.add_subtask`, `db.edit_subtask` and
`db.delete_subtask`, but `DBManager` in database.py does not define them;
the definitions below are modelled from the spec (§4.4). -/

/-- Result of a subtask operation: `{"ok": True, "subtask_id": sid}`,
`{"ok": True}`, or `{"ok": False, "error": msg}`. -/
inductive SubtaskResult where
  | err (msg : String) : SubtaskResult
  | ok (subtask_id : Option String) : SubtaskResult
deriving DecidableEq, Repr

/-- A subtask document as embedded in a task's `subtasks` array
(models.SubTask: `subtask_id`, `title`, `done`). -/
def subtaskDoc (sid title : String) (done : Bool) : Doc :=
  [("subtask_id", .str sid), ("title", .str title), ("done", .bool done)]

/-- Append a subtask to the `subtasks` array of a task document
(Mongo `$push`; creates the array when the field is absent). -/
def pushSubtask (t : Doc) (sub : Doc) : Doc :=
  match getField t "subtasks" with
  | some (.arr xs) => setField t "subtasks" (.arr (xs ++ [.doc sub]))
  | _ => setField t "subtasks" (.arr [.doc sub])

/-- Modelled from the spec: `DBManager.add_subtask` is called from main.py
but absent from database.py. Per §4.4, it is ownership-checked via a single
matched update appending a new Subtask (fresh identity `sid`, `done=false`)
to the task's subtask list, refreshes the task's `updated_at`, and returns
the new subtask id; zero matches (nonexistent id, foreign owner, or an id
that does not even parse) yields `NotFoundOrForeign`. -/
def add_subtask (db : DB) (user_id task_id title : String)
    (sid now : String) : SubtaskResult × DB :=
  match parseObjectId task_id with
  | none => (.err "Task not found (or not yours)", db)
  | some oid =>
    match db.tasks.find? (taskOwnerFilter oid user_id) with
    | none => (.err "Task not found (or not yours)", db)
    | some _ =>
      let tasks' := db.tasks.map (fun t =>
        if taskOwnerFilter oid user_id t then
          setField (pushSubtask t (subtaskDoc sid title false))
            "updated_at" (.str now)
        else t)
      (.ok (some sid), { db with tasks := tasks' })

/-- Apply a SubTaskUpdate payload (`title` and/or `done`, only the provided
fields) to one subtask value. -/
def applySubtaskUpdate (title? : Option String) (done? : Option Bool)
    (v : Value) : Value :=
  match v with
  | .doc fields =>
    let f1 := match title? with
      | some t => setField fields "title" (.str t)
      | none => fields
    let f2 := match done? with
      | some b => setField f1 "done" (.bool b)
      | none => f1
    .doc f2
  | _ => v

/-- Whether a subtask value carries the given `subtask_id`. -/
def subtaskHasId (sid : String) (v : Value) : Bool :=
  match v with
  | .doc fields => fieldEqStr fields "subtask_id" sid
  | _ => false

/-- Modelled from the spec: `DBManager.edit_subtask` is called from main.py
but absent from database.py. Per §4.4, it locates the subtask by identity
within the owner-matched task and applies only the provided fields (title
and/or done), refreshing `updated_at`; an absent subtask id within an
otherwise valid task is also `NotFoundOrForeign`. -/
def edit_subtask (db : DB) (user_id task_id subtask_id : String)
    (title? : Option String) (done? : Option Bool) (now : String) :
    SubtaskResult × DB :=
  match parseObjectId task_id with
  | none => (.err "Task not found (or not yours)", db)
  | some oid =>
    let hasSub := fun (t : Doc) =>
      taskOwnerFilter oid user_id t &&
      (match getField t "subtasks" with
       | some (.arr xs) => xs.any (subtaskHasId subtask_id)
       | _ => false)
    match db.tasks.find? hasSub with
    | none => (.err "Task not found (or not yours)", db)
    | some _ =>
      let tasks' := db.tasks.map (fun t =>
        if hasSub t then
          let t' := match getField t "subtasks" with
            | some (.arr xs) =>
              setField t "subtasks" (.arr (xs.map (fun v =>
                if subtaskHasId subtask_id v then
                  applySubtaskUpdate title? done? v
                else v)))
            | _ => t
          setField t' "updated_at" (.str now)
        else t)
      (.ok none, { db with tasks := tasks' })

/-- Modelled from the spec: `DBManager.delete_subtask` is called from
main.py but absent from database.py. Per §4.4, it removes the subtask by
identity from the owner-matched task's list, refreshing `updated_at`; an
absent subtask id is also `NotFoundOrForeign`. -/
def delete_subtask (db : DB) (user_id task_id subtask_id : String)
    (now : String) : SubtaskResult × DB :=
  match parseObjectId task_id with
  | none => (.err "Task not found (or not yours)", db)
  | some oid =>
    let hasSub := fun (t : Doc) =>
      taskOwnerFilter oid user_id t &&
      (match getField t "subtasks" with
       | some (.arr xs) => xs.any (subtaskHasId subtask_id)
       | _ => false)
    match db.tasks.find? hasSub with
    | none => (.err "Task not found (or not yours)", db)
    | some _ =>
      let tasks' := db.tasks.map (fun t =>
        if hasSub t then
          let t' := match getField t "subtasks" with
            | some (.arr xs) =>
              setField t "subtasks"
                (.arr (xs.filter (fun v => !subtaskHasId subtask_id v)))
            | _ => t
          setField t' "updated_at" (.str now)
        else t)
      (.ok none, { db with tasks := tasks' })

/-! ### Attachment registry records

`main.py` (lines 194, 218, 237, 245) calls `db.create_file_record`,
`db.get_file_record` and `db.delete_file_record`, absent from database.py;
modelled from the spec (§4.5): metadata records scoped to the owner. -/

/-- The owner-scoped file-record filter `{"user_id": uid, "file_id": fid}`. -/
def fileRecFilter (user_id file_id : String) (r : Doc) : Bool :=
  fieldEqStr r "user_id" user_id && fieldEqStr r "file_id" file_id

/-- Modelled from the spec: `DBManager.create_file_record` is called from
main.py but absent from database.py. Records the uploaded file's metadata
scoped to the owner (§4.5 upload). -/
def create_file_record (db : DB) (user_id : String) (meta : Doc) : DB :=
  { db with files := db.files ++ [setField meta "user_id" (.str user_id)] }

/-- Modelled from the spec: `DBManager.get_file_record` is called from
main.py but absent from database.py. Owner-scoped lookup (§4.5 fetch):
callers outside the owner never resolve a record. -/
def get_file_record (db : DB) (user_id file_id : String) : Option Doc :=
  findOne db.files (fileRecFilter user_id file_id)

/-- Modelled from the spec: `DBManager.delete_file_record` is called from
main.py but absent from database.py. Removes the owner-scoped metadata
record (§4.5 delete). -/
def delete_file_record (db : DB) (user_id file_id : String) : DB :=
  { db with files := (deleteOne db.files (fileRecFilter user_id file_id)).1 }

/-! ### Request models (src/backend/models.py)

Pydantic validation runs at the HTTP boundary, before any handler body and
hence before any store interaction. A JSON field that may be absent,
explicitly null, or carry a value is modelled as `Option (Option α)`:
`none` is absent, `some none` is an explicit null, `some (some x)` is a
value. Pydantic applies `ge`/`le`/length constraints only to the non-null
branch of an `Optional` field, and `TaskCreate.priority` is a plain `int`
field, so an explicit null there fails validation while its absence
selects the default 3. -/

/-- An incoming (not yet validated) `TaskCreate` request body. `none` in
`title` means the field is missing from the JSON body; `priority` is
absent, explicitly null, or an integer. -/
structure RawTaskCreate where
  title : Option String
  priority : Option (Option Int)
  due_date : Option PyDateTime := none
  description : Option String := none
  tags : List String := []
  comment : Option String := none
  subtasks : List Doc := []
  attachment : Option Doc := none

/-- A validated `models.TaskCreate` instance. -/
structure TaskCreate where
  title : String
  priority : Int
  due_date : Option PyDateTime
  description : Option String
  tags : List String
  comment : Option String
  subtasks : List Doc
  attachment : Option Doc

/-- The `description`/`comment` length checks of `models.TaskCreate`,
yielding the validated payload with title `t` and priority `q`. -/
def taskCreateChecked (r : RawTaskCreate) (t : String) (q : Int) :
    Option TaskCreate :=
  if (match r.description with
      | some d => d.length ≤ 5000
      | none => true) &&
     (match r.comment with
      | some c => c.length ≤ 2000
      | none => true) then
    some ⟨t, q, r.due_date, r.description, r.tags, r.comment,
          r.subtasks, r.attachment⟩
  else none

/-- Pydantic validation of `models.TaskCreate`: `title` is required with
length 1-200; `priority` is a non-optional `int` field (an explicit null
is a type error) defaulting to 3 when absent and must satisfy `ge=1,
le=5`; `description` is at most 5000 characters and `comment` at most
2000. -/
def validate_task_create (r : RawTaskCreate) : Option TaskCreate :=
  match r.title with
  | none => none
  | some t =>
    if 1 ≤ t.length ∧ t.length ≤ 200 then
      match r.priority with
      | some none => none
      | some (some q) =>
        if 1 ≤ q ∧ q ≤ 5 then taskCreateChecked r t q else none
      | none => taskCreateChecked r t 3
    else none

/-- Turn an optional value into a BSON value (`None` → null). -/
def optValue (f : α → Value) : Option α → Value
  | none => .null
  | some x => f x

/-- `payload.model_dump()` for a validated `TaskCreate`. -/
def TaskCreate.model_dump (p : TaskCreate) : Doc :=
  [("title", .str p.title),
   ("priority", .int p.priority),
   ("due_date", optValue Value.dtime p.due_date),
   ("description", optValue Value.str p.description),
   ("tags", .arr (p.tags.map Value.str)),
   ("comment", optValue Value.str p.comment),
   ("subtasks", .arr (p.subtasks.map Value.doc)),
   ("attachment", optValue Value.doc p.attachment)]

/-- A `models.TaskUpdate` request body: every field is `Optional` and may
be absent (`none`), explicitly null (`some none`), or carry a value
(`some (some x)`). -/
structure TaskUpdate where
  title : Option (Option String) := none
  priority : Option (Option Int) := none
  due_date : Option (Option PyDateTime) := none
  description : Option (Option String) := none
  tags : Option (Option (List String)) := none
  comment : Option (Option String) := none
  subtasks : Option (Option (List Doc)) := none
  attachment : Option (Option Doc) := none
  done : Option (Option Bool) := none

/-- Pydantic validation of `models.TaskUpdate`: each field is `Optional`,
so an absent or explicitly-null field always validates, and the `ge`/`le`
and length constraints apply only to a non-null value (`title` length
1-200, `priority` in 1-5, `description` at most 5000, `comment` at most
2000). -/
def validate_task_update (r : TaskUpdate) : Bool :=
  (match r.title with
   | some (some t) => decide (1 ≤ t.length ∧ t.length ≤ 200)
   | _ => true) &&
  (match r.priority with
   | some (some p) => decide (1 ≤ p ∧ p ≤ 5)
   | _ => true) &&
  (match r.description with
   | some (some d) => decide (d.length ≤ 5000)
   | _ => true) &&
  (match r.comment with
   | some (some c) => decide (c.length ≤ 2000)
   | _ => true)

/-- The contribution of one optional field to an `exclude_unset` dump: an
absent field is omitted, an explicitly-set field is kept — including an
explicit null, which dumps as null. -/
def optEntry (k : String) (f : α → Value) (o : Option (Option α)) : Doc :=
  match o with
  | some (some x) => [(k, f x)]
  | some none => [(k, Value.null)]
  | none => []

/-- `payload.model_dump(exclude_unset=True)`: only the provided fields, in
declaration order. -/
def TaskUpdate.dump_set (r : TaskUpdate) : Doc :=
  optEntry "title" Value.str r.title ++
  optEntry "priority" Value.int r.priority ++
  optEntry "due_date" Value.dtime r.due_date ++
  optEntry "description" Value.str r.description ++
  optEntry "tags" (fun ts => Value.arr (ts.map Value.str)) r.tags ++
  optEntry "comment" Value.str r.comment ++
  optEntry "subtasks" (fun ss => Value.arr (ss.map Value.doc)) r.subtasks ++
  optEntry "attachment" Value.doc r.attachment ++
  optEntry "done" Value.bool r.done

/-! ### HTTP endpoints (src/backend/main.py) -/

/-- Response of an endpoint, as far as the claims observe it. -/
inductive ApiResult where
  | validationError : ApiResult
  | badToken : ApiResult
  | emptyUpdate : ApiResult
  | errMsg (msg : String) : ApiResult
  | okCreate (task_id : String) : ApiResult
  | okEdit (modified : Nat) : ApiResult
  | okDelete (deleted : Nat) : ApiResult
  | okSimple : ApiResult
deriving DecidableEq, Repr

/-- `str(user["_id"])` for a user document. -/
def userIdString (u : Doc) : String :=
  match getField u "_id" with
  | some (.oid s) => s
  | some (.str s) => s
  | _ => ""

/-- `POST /tasks` (main.py lines 60-66): pydantic validation, token guard,
then `db.create_task` with the dumped payload. -/
def create_task_endpoint (db : DB) (user_token : String)
    (raw : RawTaskCreate) (newId now : String) : ApiResult × DB :=
  match validate_task_create raw with
  | none => (.validationError, db)
  | some payload =>
    match get_user_by_token db user_token with
    | none => (.badToken, db)
    | some user =>
      let (tid, db') :=
        create_task db (userIdString user) payload.model_dump newId now
      (.okCreate tid, db')

/-- `PATCH /tasks/{task_id}` (main.py lines 69-85): pydantic validation,
token guard, empty-payload guard, then `db.edit_task`. -/
def edit_task_endpoint (db : DB) (task_id : String) (r : TaskUpdate)
    (user_token now : String) : ApiResult × DB :=
  if !validate_task_update r then (.validationError, db)
  else
    match get_user_by_token db user_token with
    | none => (.badToken, db)
    | some user =>
      let updates := r.dump_set
      if updates.isEmpty then (.emptyUpdate, db)
      else
        match edit_task db (userIdString user) task_id updates now with
        | (.err m, db') => (.errMsg m, db')
        | (.ok _ modified, db') => (.okEdit modified, db')

/-- The filter `{"user_id": uid, "attachment.file_id": fid}` used by the
attachment cleanup in `DELETE /api/files/{file_id}`. -/
def attachmentRefFilter (uid fid : String) (t : Doc) : Bool :=
  fieldEqStr t "user_id" uid &&
  (match getField t "attachment" with
   | some (.doc a) => fieldEqStr a "file_id" fid
   | _ => false)

/-- `DELETE /api/files/{file_id}` (main.py lines 231-250): token guard,
owner-scoped record lookup (`"File not found"` when absent), best-effort
blob removal (`os.remove` only when the path exists on `disk`), record
deletion, then `update_many` clearing the `attachment` pointer on every
task of this owner referencing the file identity. -/
def delete_file (db : DB) (disk : List String) (file_id user_token : String) :
    ApiResult × DB × List String :=
  match get_user_by_token db user_token with
  | none => (.badToken, db, disk)
  | some user =>
    let uid := userIdString user
    match get_file_record db uid file_id with
    | none => (.errMsg "File not found", db, disk)
    | some rec =>
      let disk' :=
        match getField rec "path" with
        | some (.str p) =>
          if p ≠ "" && disk.contains p then disk.filter (fun q => q != p)
          else disk
        | _ => disk
      let db1 := delete_file_record db uid file_id
      let (tasks', _) :=
        updateMany db1.tasks (attachmentRefFilter uid file_id)
          [("attachment", .null)]
      (.okSimple, { db1 with tasks := tasks' }, disk')

/-! ### Lemmas about documents and collection operations -/

theorem fieldEqStr_iff (t : Doc) (k s : String) :
    fieldEqStr t k s = true ↔ getField t k = some (.str s) := by
  unfold fieldEqStr
  cases h : getField t k with
  | none => simp
  | some v =>
    cases v <;> simp_all [beq_iff_eq]

theorem fieldEqOid_iff (t : Doc) (k s : String) :
    fieldEqOid t k s = true ↔ getField t k = some (.oid s) := by
  unfold fieldEqOid
  cases h : getField t k with
  | none => simp
  | some v =>
    cases v <;> simp_all [beq_iff_eq]

theorem taskOwnerFilter_iff (oid uid : String) (t : Doc) :
    taskOwnerFilter oid uid t = true ↔
      getField t "_id" = some (.oid oid) ∧
      getField t "user_id" = some (.str uid) := by
  unfold taskOwnerFilter
  rw [Bool.and_eq_true, fieldEqOid_iff, fieldEqStr_iff]

theorem getField_setField_self (d : Doc) (k : String) (v : Value) :
    getField (setField d k v) k = some v := by
  induction d with
  | nil => simp [setField, getField]
  | cons kv rest ih =>
    obtain ⟨k', v'⟩ := kv
    by_cases h : k' = k
    · simp [setField, getField, h]
    · simp [setField, getField, h, ih]

theorem getField_setField_ne (d : Doc) (k k' : String) (v : Value)
    (h : k' ≠ k) : getField (setField d k v) k' = getField d k' := by
  induction d with
  | nil => simp [setField, getField, Ne.symm h]
  | cons kv rest ih =>
    obtain ⟨k0, v0⟩ := kv
    by_cases h0 : k0 = k
    · subst h0
      simp [setField, getField, Ne.symm h]
    · simp only [setField, if_neg h0]
      by_cases h1 : k0 = k'
      · simp [getField, h1]
      · simp [getField, h1, ih]

theorem getField_popKey_ne (d : Doc) (k k' : String) (h : k' ≠ k) :
    getField (popKey d k) k' = getField d k' := by
  induction d with
  | nil => rfl
  | cons kv rest ih =>
    obtain ⟨k0, v0⟩ := kv
    by_cases h0 : k0 = k
    · have hdrop : popKey ((k0, v0) :: rest) k = popKey rest k := by
        simp [popKey, List.filter_cons, h0]
      have hne : k0 ≠ k' := by rw [h0]; exact Ne.symm h
      rw [hdrop, ih]
      simp [getField, hne]
    · have hkeep : popKey ((k0, v0) :: rest) k = (k0, v0) :: popKey rest k := by
        simp [popKey, List.filter_cons, h0]
      rw [hkeep]
      by_cases h1 : k0 = k'
      · simp [getField, h1]
      · simp [getField, h1, ih]

theorem getField_append_left (d d2 : Doc) (k : String) (v : Value)
    (h : getField d k = some v) : getField (d ++ d2) k = some v := by
  induction d with
  | nil => simp [getField] at h
  | cons kv rest ih =>
    obtain ⟨k0, v0⟩ := kv
    by_cases h0 : k0 = k
    · simp_all [getField]
    · simp_all [getField]

theorem getField_setDefault_present (d : Doc) (k k' : String) (v v' : Value)
    (h : getField d k' = some v') :
    getField (setDefault d k v) k' = some v' := by
  unfold setDefault
  cases hk : getField d k with
  | some _ => exact h
  | none => exact getField_append_left d [(k, v)] k' v' h

/-- Keys absent from the update document are untouched by `applySet`. -/
theorem getField_applySet_notin (us : Doc) (d : Doc) (k : String)
    (h : k ∉ us.map Prod.fst) :
    getField (applySet d us) k = getField d k := by
  induction us generalizing d with
  | nil => rfl
  | cons kv rest ih =>
    obtain ⟨k1, v1⟩ := kv
    simp only [List.map_cons, List.mem_cons, not_or] at h
    show getField (applySet (setField d k1 v1) rest) k = _
    rw [ih (setField d k1 v1) h.2, getField_setField_ne d k1 k v1 h.1]

/-- With unique keys, a key listed in the update document ends up at its
listed value after `applySet`. -/
theorem getField_applySet_mem (us : Doc) (d : Doc) (k : String) (v : Value)
    (hnd : (us.map Prod.fst).Nodup) (hmem : (k, v) ∈ us) :
    getField (applySet d us) k = some v := by
  induction us generalizing d with
  | nil => simp at hmem
  | cons kv rest ih =>
    obtain ⟨k1, v1⟩ := kv
    simp only [List.map_cons, List.nodup_cons] at hnd
    rcases List.mem_cons.mp hmem with heq | htail
    · cases heq
      show getField (applySet (setField d k v) rest) k = some v
      rw [getField_applySet_notin rest (setField d k v) k hnd.1]
      exact getField_setField_self d k v
    · show getField (applySet (setField d k1 v1) rest) k = some v
      exact ih (setField d k1 v1) hnd.2 htail

/-- After `applySet`, every key holds either its old value or a value
listed in the update document. -/
theorem getField_applySet_cases (us : Doc) (d : Doc) (k : String) :
    getField (applySet d us) k = getField d k ∨
    ∃ v, (k, v) ∈ us ∧ getField (applySet d us) k = some v := by
  induction us generalizing d with
  | nil => exact Or.inl rfl
  | cons kv rest ih =>
    obtain ⟨k1, v1⟩ := kv
    rcases ih (setField d k1 v1) with h | ⟨v, hv, hg⟩
    · by_cases hk : k = k1
      · subst hk
        refine Or.inr ⟨v1, List.mem_cons_self .., ?_⟩
        show getField (applySet (setField d k v1) rest) k = some v1
        rw [h]
        exact getField_setField_self d k v1
      · refine Or.inl ?_
        show getField (applySet (setField d k1 v1) rest) k = getField d k
        rw [h]
        exact getField_setField_ne d k1 k v1 hk
    · exact Or.inr ⟨v, List.mem_cons_of_mem _ hv, hg⟩

/-- `find?` skips a prefix of non-matching documents. -/
theorem find?_middle (l1 l2 : List Doc) (T : Doc) (p : Doc → Bool)
    (h1 : ∀ d ∈ l1, p d = false) (hT : p T = true) :
    (l1 ++ T :: l2).find? p = some T := by
  induction l1 with
  | nil => simp [List.find?, hT]
  | cons d rest ih =>
    have hd : p d = false := h1 d (List.mem_cons_self ..)
    simp only [List.cons_append, List.find?, hd]
    exact ih (fun x hx => h1 x (List.mem_cons_of_mem _ hx))

/-- `find?` over a list with no matching document. -/
theorem find?_nomatch (l : List Doc) (p : Doc → Bool)
    (h : ∀ d ∈ l, p d = false) : l.find? p = none := by
  apply List.find?_eq_none.mpr
  intro x hx
  simp [h x hx]

/-- `update_one` with no matching document leaves the collection as is. -/
theorem updateOne_nomatch (coll : List Doc) (p : Doc → Bool) (us : Doc)
    (h : ∀ d ∈ coll, p d = false) :
    updateOne coll p us = (coll, ⟨0, 0⟩) := by
  induction coll with
  | nil => rfl
  | cons d rest ih =>
    have hd : p d = false := h d (List.mem_cons_self ..)
    have hrest := ih (fun x hx => h x (List.mem_cons_of_mem _ hx))
    simp [updateOne, hd, hrest]

/-- `update_one` on a collection whose first match is `T`. -/
theorem updateOne_split (l1 l2 : List Doc) (T : Doc) (p : Doc → Bool)
    (us : Doc) (h1 : ∀ d ∈ l1, p d = false) (hT : p T = true) :
    updateOne (l1 ++ T :: l2) p us =
      (l1 ++ applySet T us :: l2,
       ⟨1, if Value.beq (.doc (applySet T us)) (.doc T) then 0 else 1⟩) := by
  induction l1 with
  | nil => simp [updateOne, hT]
  | cons d rest ih =>
    have hd : p d = false := h1 d (List.mem_cons_self ..)
    have hrest := ih (fun x hx => h1 x (List.mem_cons_of_mem _ hx))
    simp [updateOne, hd, hrest]

/-- Every document of an updated collection is an original document or an
updated original document. -/
theorem updateOne_mem (coll : List Doc) (p : Doc → Bool) (us : Doc) :
    ∀ x ∈ (updateOne coll p us).1,
      x ∈ coll ∨ ∃ d ∈ coll, x = applySet d us := by
  induction coll with
  | nil => simp [updateOne]
  | cons d rest ih =>
    intro x hx
    by_cases hd : p d
    · simp only [updateOne, if_pos hd] at hx
      rcases List.mem_cons.mp hx with heq | htail
      · exact Or.inr ⟨d, List.mem_cons_self .., heq⟩
      · exact Or.inl (List.mem_cons_of_mem _ htail)
    · simp only [updateOne, if_neg hd] at hx
      rcases List.mem_cons.mp hx with heq | htail
      · exact Or.inl (heq ▸ List.mem_cons_self ..)
      · rcases ih x htail with h | ⟨e, he, heq⟩
        · exact Or.inl (List.mem_cons_of_mem _ h)
        · exact Or.inr ⟨e, List.mem_cons_of_mem _ he, heq⟩

/-- `delete_one` with no matching document leaves the collection as is. -/
theorem deleteOne_nomatch (coll : List Doc) (p : Doc → Bool)
    (h : ∀ d ∈ coll, p d = false) :
    deleteOne coll p = (coll, 0) := by
  induction coll with
  | nil => rfl
  | cons d rest ih =>
    have hd : p d = false := h d (List.mem_cons_self ..)
    have hrest := ih (fun x hx => h x (List.mem_cons_of_mem _ hx))
    simp [deleteOne, hd, hrest]

/-- `delete_one` on a collection whose first match is `T`. -/
theorem deleteOne_split (l1 l2 : List Doc) (T : Doc) (p : Doc → Bool)
    (h1 : ∀ d ∈ l1, p d = false) (hT : p T = true) :
    deleteOne (l1 ++ T :: l2) p = (l1 ++ l2, 1) := by
  induction l1 with
  | nil => simp [deleteOne, hT]
  | cons d rest ih =>
    have hd : p d = false := h1 d (List.mem_cons_self ..)
    have hrest := ih (fun x hx => h1 x (List.mem_cons_of_mem _ hx))
    simp [deleteOne, hd, hrest]

/-- Mapping a function that fixes every member is the identity. -/
theorem map_noop (l : List Doc) (f : Doc → Doc)
    (h : ∀ x ∈ l, f x = x) : l.map f = l := by
  induction l with
  | nil => rfl
  | cons d rest ih =>
    rw [List.map_cons, h d (List.mem_cons_self ..),
      ih (fun x hx => h x (List.mem_cons_of_mem _ hx))]

/-- In a collection with pairwise distinct `_id` fields, a shared `_id`
means the same document. -/
theorem pairwise_id_inj {l : List Doc}
    (h : l.Pairwise (fun a b => getField a "_id" ≠ getField b "_id"))
    {a b : Doc} (ha : a ∈ l) (hb : b ∈ l)
    (heq : getField a "_id" = getField b "_id") : a = b := by
  induction l with
  | nil => simp at ha
  | cons d rest ih =>
    have hd := List.pairwise_cons.mp h
    rcases List.mem_cons.mp ha with rfl | ha'
    · rcases List.mem_cons.mp hb with rfl | hb'
      · rfl
      · exact absurd heq (hd.1 b hb')
    · rcases List.mem_cons.mp hb with rfl | hb'
      · exact absurd heq.symm (hd.1 a ha')
      · exact ih hd.2 ha' hb'

theorem taskOwnerFilter_false_of_id (d : Doc) (tid uid : String)
    (h : getField d "_id" ≠ some (.oid tid)) :
    taskOwnerFilter tid uid d = false := by
  cases hf : taskOwnerFilter tid uid d
  · rfl
  · exact absurd ((taskOwnerFilter_iff tid uid d).mp hf).1 h

theorem fieldEqStr_false_of_ne (d : Doc) (k s : String)
    (h : getField d k ≠ some (.str s)) : fieldEqStr d k s = false := by
  cases hf : fieldEqStr d k s
  · rfl
  · exact absurd ((fieldEqStr_iff d k s).mp hf) h

theorem parseObjectId_eq {s o : String} (h : parseObjectId s = some o) :
    o = s := by
  unfold parseObjectId at h
  split at h
  · exact (Option.some.inj h).symm
  · exact absurd h (by simp)

theorem parseDate_midnight (ds : String) (base : PyDateTime)
    (h : parseDate ds = some base) :
    base.hour = 0 ∧ base.minute = 0 ∧ base.second = 0 := by
  unfold parseDate at h
  split at h
  · split at h
    · dsimp only at h
      split at h
      · have := Option.some.inj h
        subst this
        exact ⟨rfl, rfl, rfl⟩
      · exact absurd h (by simp)
    · exact absurd h (by simp)
  · exact absurd h (by simp)

theorem mem_setField (d : Doc) (k : String) (v : Value) :
    ∀ x ∈ setField d k v, x = (k, v) ∨ x ∈ d := by
  induction d with
  | nil => simp [setField]
  | cons kv rest ih =>
    obtain ⟨k0, v0⟩ := kv
    intro x hx
    by_cases h0 : k0 = k
    · simp only [setField, if_pos h0] at hx
      rcases List.mem_cons.mp hx with heq | htail
      · exact Or.inl (by rw [heq, h0])
      · exact Or.inr (List.mem_cons_of_mem _ htail)
    · simp only [setField, if_neg h0] at hx
      rcases List.mem_cons.mp hx with heq | htail
      · exact Or.inr (heq ▸ List.mem_cons_self ..)
      · rcases ih x htail with h | h
        · exact Or.inl h
        · exact Or.inr (List.mem_cons_of_mem _ h)

theorem self_mem_setField (d : Doc) (k : String) (v : Value) :
    (k, v) ∈ setField d k v := by
  induction d with
  | nil => simp [setField]
  | cons kv rest ih =>
    obtain ⟨k0, v0⟩ := kv
    by_cases h0 : k0 = k
    · subst h0
      simp [setField]
    · simp only [setField, if_neg h0]
      exact List.mem_cons_of_mem _ ih

theorem mem_popKey (d : Doc) (k : String) :
    ∀ x ∈ popKey d k, x ∈ d :=
  fun _ hx => List.mem_of_mem_filter hx

theorem keys_popKey_self (d : Doc) (k : String) :
    k ∉ (popKey d k).map Prod.fst := by
  intro hmem
  obtain ⟨kv, hkv, hfst⟩ := List.mem_map.mp hmem
  have hf := (List.mem_filter.mp hkv).2
  rw [hfst] at hf
  simp at hf

theorem keys_popKey_subset (d : Doc) (k k' : String)
    (h : k' ∉ d.map Prod.fst) : k' ∉ (popKey d k).map Prod.fst := by
  intro hmem
  obtain ⟨kv, hkv, hfst⟩ := List.mem_map.mp hmem
  exact h (List.mem_map.mpr ⟨kv, mem_popKey d k kv hkv, hfst⟩)

theorem keys_setField_subset (d : Doc) (k k' : String) (v : Value)
    (hne : k' ≠ k) (h : k' ∉ d.map Prod.fst) :
    k' ∉ (setField d k v).map Prod.fst := by
  intro hmem
  obtain ⟨kv, hkv, hfst⟩ := List.mem_map.mp hmem
  rcases mem_setField d k v kv hkv with heq | hm
  · rw [heq] at hfst
    exact hne hfst.symm
  · exact h (List.mem_map.mpr ⟨kv, hm, hfst⟩)

theorem keys_popKey_sublist (d : Doc) (k : String) :
    ((popKey d k).map Prod.fst).Sublist (d.map Prod.fst) :=
  (List.filter_sublist d).map Prod.fst

theorem keys_setField_nodup (d : Doc) (k : String) (v : Value)
    (h : (d.map Prod.fst).Nodup) :
    ((setField d k v).map Prod.fst).Nodup := by
  induction d with
  | nil => simp [setField]
  | cons kv rest ih =>
    obtain ⟨k0, v0⟩ := kv
    simp only [List.map_cons, List.nodup_cons] at h
    by_cases h0 : k0 = k
    · simp only [setField, if_pos h0, List.map_cons, List.nodup_cons]
      exact ⟨h.1, h.2⟩
    · simp only [setField, if_neg h0, List.map_cons, List.nodup_cons]
      refine ⟨?_, ih h.2⟩
      intro hmem
      rcases List.mem_map.mp hmem with ⟨x, hx, hfst⟩
      rcases mem_setField rest k v x hx with heq | hm
      · rw [heq] at hfst
        exact h0 hfst.symm
      · exact h.1 (List.mem_map.mpr ⟨x, hm, hfst⟩)

/-! ### Claim theorems -/

/-- C9: for every owner and every task_id string that does not parse as a
valid object identity, `edit_task` and `delete_task` return the
`"Invalid task_id"` error and leave the whole store — in particular every
stored task document — unchanged. -/
theorem invalid_id_rejected_before_store (db : DB) (uid tid : String)
    (updates : Doc) (now : String) (h : parseObjectId tid = none) :
    edit_task db uid tid updates now = (.err "Invalid task_id", db) ∧
    delete_task db uid tid = (.err "Invalid task_id", db) := by
  unfold edit_task delete_task
  rw [h]
  exact ⟨rfl, rfl⟩

/-- Witness for C9 at the concrete malformed identity `"xyz"`. -/
theorem invalid_id_rejected_before_store_witness :
    edit_task ⟨[], [], []⟩ "u" "xyz" [("title", .str "t")] "now" =
      (.err "Invalid task_id", ⟨[], [], []⟩) ∧
    delete_task ⟨[], [], []⟩ "u" "xyz" =
      (.err "Invalid task_id", ⟨[], [], []⟩) :=
  invalid_id_rejected_before_store ⟨[], [], []⟩ "u" "xyz"
    [("title", .str "t")] "now" (by decide)

/-- C3 (code bug): `get_tasks_view` does not return normally for the `day`
and `week` views — database.py imports only `datetime` from the `datetime`
module, so the `timedelta` used in those branches is an unbound name and the
call raises `NameError` instead of querying `[d, d + 1 day)` respectively
`[Monday, Monday + 7 days)`. Evaluated here at the spec's own anchor
2024-01-10. -/
theorem day_week_views_raise_name_error :
    get_tasks_view ⟨[], [], []⟩ "u" "day" "2024-01-10" =
      .error (.nameError "timedelta") ∧
    get_tasks_view ⟨[], [], []⟩ "u" "week" "2024-01-10" =
      .error (.nameError "timedelta") :=
  ⟨rfl, rfl⟩

/-- C2 (code bug): `get_user_by_token ""` does not resolve to `none` on a
store holding a registered user who never logged in — `create_user` stores
`token = ""`, so the empty token matches that user's document and the
lookup authenticates as them. -/
theorem empty_token_resolves_registered_user :
    (create_user ⟨[], [], []⟩ "alice" "pw" (fun _ => "h")
        "aaaaaaaaaaaaaaaaaaaaaaaa").1 = some "aaaaaaaaaaaaaaaaaaaaaaaa" ∧
    get_user_by_token
        (create_user ⟨[], [], []⟩ "alice" "pw" (fun _ => "h")
          "aaaaaaaaaaaaaaaaaaaaaaaa").2 "" =
      some [("_id", .oid "aaaaaaaaaaaaaaaaaaaaaaaa"),
            ("username", .str "alice"),
            ("password_hash", .str "h"),
            ("tasks", .arr []),
            ("token", .str "")] :=
  ⟨rfl, rfl⟩

/-- C1: for every task T created with owner identity A and every owner
identity B ≠ A, `edit_task(B, T.id, updates)` and `delete_task(B, T.id)`
return the `"Task not found (or not yours)"` error and leave the whole
store — in particular T's stored document — completely unchanged. The
hypotheses say that T is stored with id `tid` and owner A, that `tid` is a
well-formed ObjectId string (round-tripping through `str`), and that `_id`
values are pairwise distinct (Mongo's unique `_id` index). -/
theorem ownership_isolation_mutation (db : DB) (A B tid now : String)
    (T : Doc) (updates : Doc)
    (hBA : B ≠ A)
    (hmem : T ∈ db.tasks)
    (hid : getField T "_id" = some (.oid tid))
    (howner : getField T "user_id" = some (.str A))
    (hparse : parseObjectId tid = some tid)
    (huniq : db.tasks.Pairwise (fun a b => getField a "_id" ≠ getField b "_id")) :
    edit_task db B tid updates now =
      (.err "Task not found (or not yours)", db) ∧
    delete_task db B tid = (.err "Task not found (or not yours)", db) := by
  have hno : ∀ d ∈ db.tasks, taskOwnerFilter tid B d = false := by
    intro d hd
    cases hf : taskOwnerFilter tid B d
    · rfl
    · exfalso
      obtain ⟨hdid, hduid⟩ := (taskOwnerFilter_iff tid B d).mp hf
      have hdT : d = T := pairwise_id_inj huniq hd hmem (by rw [hdid, hid])
      subst hdT
      rw [howner] at hduid
      have : A = B := by
        have := Option.some.inj hduid
        exact Value.str.inj this
      exact hBA this.symm
  constructor
  · unfold edit_task
    rw [hparse]
    dsimp only
    rw [updateOne_nomatch db.tasks (taskOwnerFilter tid B)
      (setField (popKey (popKey updates "user_id") "_id")
        "updated_at" (.str now)) hno]
    rfl
  · unfold delete_task
    rw [hparse]
    dsimp only
    rw [deleteOne_nomatch db.tasks (taskOwnerFilter tid B) hno]
    rfl

/-- Witness for C1: a one-task store owned by A, mutated by B. -/
theorem ownership_isolation_mutation_witness :
    edit_task
        ⟨[], [[("_id", .oid "aaaaaaaaaaaaaaaaaaaaaaaa"),
               ("user_id", .str "A"), ("title", .str "t")]], []⟩
        "B" "aaaaaaaaaaaaaaaaaaaaaaaa" [("title", .str "x")] "now" =
      (.err "Task not found (or not yours)",
       ⟨[], [[("_id", .oid "aaaaaaaaaaaaaaaaaaaaaaaa"),
              ("user_id", .str "A"), ("title", .str "t")]], []⟩) ∧
    delete_task
        ⟨[], [[("_id", .oid "aaaaaaaaaaaaaaaaaaaaaaaa"),
               ("user_id", .str "A"), ("title", .str "t")]], []⟩
        "B" "aaaaaaaaaaaaaaaaaaaaaaaa" =
      (.err "Task not found (or not yours)",
       ⟨[], [[("_id", .oid "aaaaaaaaaaaaaaaaaaaaaaaa"),
              ("user_id", .str "A"), ("title", .str "t")]], []⟩) := by
  have h := ownership_isolation_mutation
    ⟨[], [[("_id", .oid "aaaaaaaaaaaaaaaaaaaaaaaa"),
           ("user_id", .str "A"), ("title", .str "t")]], []⟩
    "A" "B" "aaaaaaaaaaaaaaaaaaaaaaaa" "now"
    [("_id", .oid "aaaaaaaaaaaaaaaaaaaaaaaa"),
     ("user_id", .str "A"), ("title", .str "t")]
    [("title", .str "x")]
    (by decide)
    (List.mem_singleton.mpr rfl)
    rfl
    rfl
    (by decide)
    (List.pairwise_singleton ..)
  exact h

/-- C7: for every owner A, owned task T and update payload, a successful
`edit_task` strips `user_id` and `_id` from the payload before applying, so
the stored document keeps its identity and owner, and stamps
`updated_at = now` — even when the payload carries no other field. The
store is decomposed as `l1 ++ T :: l2` with no earlier `_id` collision;
`hnodup` reflects that a Python dict has unique keys. -/
theorem edit_task_keeps_owner_and_stamps (db : DB) (A tid now : String)
    (T updates : Doc) (l1 l2 : List Doc)
    (hsplit : db.tasks = l1 ++ T :: l2)
    (hl1 : ∀ d ∈ l1, getField d "_id" ≠ some (.oid tid))
    (hid : getField T "_id" = some (.oid tid))
    (howner : getField T "user_id" = some (.str A))
    (hparse : parseObjectId tid = some tid)
    (hnodup : (updates.map Prod.fst).Nodup) :
    ∃ m T',
      edit_task db A tid updates now =
        (.ok 1 m, { db with tasks := l1 ++ T' :: l2 }) ∧
      getField T' "_id" = some (.oid tid) ∧
      getField T' "user_id" = some (.str A) ∧
      getField T' "updated_at" = some (.str now) := by
  have hpT : taskOwnerFilter tid A T = true :=
    (taskOwnerFilter_iff tid A T).mpr ⟨hid, howner⟩
  have hpl1 : ∀ d ∈ l1, taskOwnerFilter tid A d = false :=
    fun d hd => taskOwnerFilter_false_of_id d tid A (hl1 d hd)
  refine ⟨if Value.beq
      (.doc (applySet T (setField (popKey (popKey updates "user_id") "_id")
        "updated_at" (.str now)))) (.doc T) then 0 else 1,
    applySet T (setField (popKey (popKey updates "user_id") "_id")
      "updated_at" (.str now)), ?_, ?_, ?_, ?_⟩
  · unfold edit_task
    rw [hparse]
    dsimp only
    rw [hsplit, updateOne_split l1 l2 T (taskOwnerFilter tid A) _ hpl1 hpT]
    rfl
  · rw [getField_applySet_notin _ T "_id"
      (keys_setField_subset _ "updated_at" "_id" _ (by decide)
        (keys_popKey_self (popKey updates "user_id") "_id"))]
    exact hid
  · rw [getField_applySet_notin _ T "user_id"
      (keys_setField_subset _ "updated_at" "user_id" _ (by decide)
        (keys_popKey_subset _ "_id" "user_id"
          (keys_popKey_self updates "user_id")))]
    exact howner
  · have hnd0 : ((popKey (popKey updates "user_id") "_id").map
        Prod.fst).Nodup :=
      ((keys_popKey_sublist (popKey updates "user_id") "_id").trans
        (keys_popKey_sublist updates "user_id")).nodup hnodup
    exact getField_applySet_mem _ T "updated_at" (.str now)
      (keys_setField_nodup _ "updated_at" (.str now) hnd0)
      (self_mem_setField _ "updated_at" (.str now))

/-- Witness for C7 on a one-task store with a title-only payload. -/
theorem edit_task_keeps_owner_and_stamps_witness :
    ∃ m T',
      edit_task
          ⟨[], [[("_id", .oid "bbbbbbbbbbbbbbbbbbbbbbbb"),
                 ("user_id", .str "A"), ("title", .str "t")]], []⟩
          "A" "bbbbbbbbbbbbbbbbbbbbbbbb" [("title", .str "x")] "NOW" =
        (.ok 1 m,
         { users := [], tasks := [] ++ T' :: [],
           files := [] : DB }) ∧
      getField T' "_id" = some (.oid "bbbbbbbbbbbbbbbbbbbbbbbb") ∧
      getField T' "user_id" = some (.str "A") ∧
      getField T' "updated_at" = some (.str "NOW") :=
  edit_task_keeps_owner_and_stamps
    ⟨[], [[("_id", .oid "bbbbbbbbbbbbbbbbbbbbbbbb"),
           ("user_id", .str "A"), ("title", .str "t")]], []⟩
    "A" "bbbbbbbbbbbbbbbbbbbbbbbb" "NOW"
    [("_id", .oid "bbbbbbbbbbbbbbbbbbbbbbbb"),
     ("user_id", .str "A"), ("title", .str "t")]
    [("title", .str "x")] [] []
    rfl (by simp) rfl rfl (by decide) (by decide)

/-- C8: issuing a token twice for the same user (`update_user_token` with
fresh uuids `t1` then `t2`) overwrites the stored token unconditionally:
both calls succeed, and afterwards `t1` resolves no user while `t2`
resolves the user — a single active token per user. The store is
decomposed as `l1 ++ U :: l2` with `U` the first document carrying the
username; freshness of the generated uuids is the hypothesis that no other
stored document carries `t1` or `t2` and that `t1 ≠ t2`. -/
theorem token_reissue_invalidates_previous (db : DB) (l1 l2 : List Doc)
    (U : Doc) (un t1 t2 : String)
    (hsplit : db.users = l1 ++ U :: l2)
    (hU : getField U "username" = some (.str un))
    (hl1 : ∀ d ∈ l1, getField d "username" ≠ some (.str un))
    (hfresh1 : ∀ d, d ∈ l1 ∨ d ∈ l2 → getField d "token" ≠ some (.str t1))
    (hfresh2 : ∀ d, d ∈ l1 ∨ d ∈ l2 → getField d "token" ≠ some (.str t2))
    (hne : t1 ≠ t2) :
    (update_user_token db un t1).1 = .ok t1 ∧
    (update_user_token (update_user_token db un t1).2 un t2).1 = .ok t2 ∧
    get_user_by_token
      (update_user_token (update_user_token db un t1).2 un t2).2 t1 = none ∧
    get_user_by_token
      (update_user_token (update_user_token db un t1).2 un t2).2 t2 =
      some (setField (setField U "token" (.str t1)) "token" (.str t2)) := by
  have hpU : fieldEqStr U "username" un = true :=
    (fieldEqStr_iff U "username" un).mpr hU
  have hpl1 : ∀ d ∈ l1, fieldEqStr d "username" un = false :=
    fun d hd => fieldEqStr_false_of_ne d "username" un (hl1 d hd)
  have hU1 : getField (setField U "token" (.str t1)) "username" =
      some (.str un) := by
    rw [getField_setField_ne U "token" "username" _ (by decide)]
    exact hU
  have hpU1 : fieldEqStr (setField U "token" (.str t1)) "username" un =
      true :=
    (fieldEqStr_iff _ "username" un).mpr hU1
  have h1 : update_user_token db un t1 =
      (.ok t1,
       { db with users := l1 ++ setField U "token" (.str t1) :: l2 }) := by
    unfold update_user_token
    rw [hsplit,
      updateOne_split l1 l2 U (fun u => fieldEqStr u "username" un)
        [("token", .str t1)] hpl1 hpU]
    rfl
  have h2 : update_user_token
      { db with users := l1 ++ setField U "token" (.str t1) :: l2 } un t2 =
      (.ok t2,
       { db with users := l1 ++ (setField (setField U "token" (.str t1)) "token" (.str t2)) :: l2 }) := by
    unfold update_user_token
    dsimp only
    rw [updateOne_split l1 l2 (setField U "token" (.str t1))
      (fun u => fieldEqStr u "username" un) [("token", .str t2)]
      hpl1 hpU1]
    rfl
  have hU2tok : getField
      (setField (setField U "token" (.str t1)) "token" (.str t2)) "token" =
      some (.str t2) :=
    getField_setField_self (setField U "token" (.str t1)) "token" (.str t2)
  refine ⟨by rw [h1], by rw [h1, h2], ?_, ?_⟩
  · rw [h1, h2]
    unfold get_user_by_token findOne
    apply find?_nomatch
    intro d hd
    rcases List.mem_append.mp hd with hdl1 | hdc
    · exact fieldEqStr_false_of_ne d "token" t1 (hfresh1 d (Or.inl hdl1))
    · rcases List.mem_cons.mp hdc with rfl | hdl2
      · apply fieldEqStr_false_of_ne
        rw [hU2tok]
        intro hcon
        exact hne ((Value.str.inj (Option.some.inj hcon)).symm)
      · exact fieldEqStr_false_of_ne d "token" t1 (hfresh1 d (Or.inr hdl2))
  · rw [h1, h2]
    unfold get_user_by_token findOne
    apply find?_middle
    · intro d hd
      exact fieldEqStr_false_of_ne d "token" t2 (hfresh2 d (Or.inl hd))
    · exact (fieldEqStr_iff _ "token" t2).mpr hU2tok

/-- Witness for C8 on a store with a single registered user. -/
theorem token_reissue_invalidates_previous_witness :
    (update_user_token
      ⟨[[("username", .str "alice"), ("token", .str "")]], [], []⟩
      "alice" "T1").1 = .ok "T1" ∧
    (update_user_token
      (update_user_token
        ⟨[[("username", .str "alice"), ("token", .str "")]], [], []⟩
        "alice" "T1").2 "alice" "T2").1 = .ok "T2" ∧
    get_user_by_token
      (update_user_token
        (update_user_token
          ⟨[[("username", .str "alice"), ("token", .str "")]], [], []⟩
          "alice" "T1").2 "alice" "T2").2 "T1" = none ∧
    get_user_by_token
      (update_user_token
        (update_user_token
          ⟨[[("username", .str "alice"), ("token", .str "")]], [], []⟩
          "alice" "T1").2 "alice" "T2").2 "T2" =
      some (setField
        (setField [("username", .str "alice"), ("token", .str "")]
          "token" (.str "T1")) "token" (.str "T2")) :=
  token_reissue_invalidates_previous
    ⟨[[("username", .str "alice"), ("token", .str "")]], [], []⟩
    [] [] [("username", .str "alice"), ("token", .str "")]
    "alice" "T1" "T2" rfl rfl (by simp) (by simp) (by simp) (by decide)

/-- C6: for every well-formed anchor date (parsed to midnight), the month
view uses the half-open range from the first of the anchor's month to the
first of the next month, December rolling over to January of the next
year, and the year view uses `[Jan 1, Jan 1 of year+1)`; in particular the
leap-year anchor 2024-02-15 yields `[2024-02-01, 2024-03-01)` and
2023-06-01 yields `[2023-01-01, 2024-01-01)`. -/
theorem month_year_view_ranges (ds : String) (base : PyDateTime)
    (h : parseDate ds = some base) :
    (base.hour = 0 ∧ base.minute = 0 ∧ base.second = 0) ∧
    viewRange "month" base =
      .ok (some ({ base with day := 1 },
        if base.month = 12 then
          { base with year := base.year + 1, month := 1, day := 1 }
        else { base with month := base.month + 1, day := 1 })) ∧
    viewRange "year" base =
      .ok (some ({ base with month := 1, day := 1 },
        { base with year := base.year + 1, month := 1, day := 1 })) ∧
    viewRange "month" { year := 2024, month := 2, day := 15 } =
      .ok (some ({ year := 2024, month := 2, day := 1 },
        { year := 2024, month := 3, day := 1 })) ∧
    viewRange "year" { year := 2023, month := 6, day := 1 } =
      .ok (some ({ year := 2023, month := 1, day := 1 },
        { year := 2024, month := 1, day := 1 })) := by
  refine ⟨parseDate_midnight ds base h, ?_, rfl, rfl, rfl⟩
  show (if base.month = 12 then _ else _) = _
  split <;> rfl

/-- Witness for C6 at the spec's anchors 2024-02-15 and 2023-06-01. -/
theorem month_year_view_ranges_witness :
    parseDate "2024-02-15" = some { year := 2024, month := 2, day := 15 } ∧
    viewRange "month" { year := 2024, month := 2, day := 15 } =
      .ok (some ({ year := 2024, month := 2, day := 1 },
        { year := 2024, month := 3, day := 1 })) ∧
    viewRange "year" { year := 2023, month := 6, day := 1 } =
      .ok (some ({ year := 2023, month := 1, day := 1 },
        { year := 2024, month := 1, day := 1 })) :=
  ⟨rfl,
   (month_year_view_ranges "2024-02-15"
     { year := 2024, month := 2, day := 15 } rfl).2.2.2.1,
   (month_year_view_ranges "2024-02-15"
     { year := 2024, month := 2, day := 15 } rfl).2.2.2.2⟩

/-- Mapping an ownership-guarded mutation over a collection whose only
matching document is `T` rewrites exactly `T`. -/
theorem map_scoped (l1 l2 : List Doc) (T : Doc) (p : Doc → Bool)
    (f : Doc → Doc)
    (h1 : ∀ d ∈ l1, p d = false) (h2 : ∀ d ∈ l2, p d = false)
    (hT : p T = true) :
    (l1 ++ T :: l2).map (fun t => if p t then f t else t) =
      l1 ++ f T :: l2 := by
  rw [List.map_append, List.map_cons,
    map_noop l1 _ (fun x hx => by simp [h1 x hx]),
    map_noop l2 _ (fun x hx => by simp [h2 x hx]), hT]
  simp

/-- C4: subtask operations are ownership-scoped: on a task owned by A,
`add_subtask` appends a new subtask document (identity `sid`, `done=false`)
to the task's subtask list, refreshes the task's `updated_at`, and returns
the new subtask identity; invoked by any other owner `B`, or against an
identity held by no stored task, all three subtask operations return the
`"Task not found (or not yours)"` error and leave the store unchanged. -/
theorem subtask_ops_ownership_scoped (db : DB) (A tid : String) (T : Doc)
    (l1 l2 : List Doc) (subs : List Value)
    (title sid now sid2 : String) (tOpt : Option String) (dOpt : Option Bool)
    (hsplit : db.tasks = l1 ++ T :: l2)
    (hparse : parseObjectId tid = some tid)
    (hid : getField T "_id" = some (.oid tid))
    (howner : getField T "user_id" = some (.str A))
    (hsubs : getField T "subtasks" = some (.arr subs))
    (hl1 : ∀ d ∈ l1, getField d "_id" ≠ some (.oid tid))
    (hl2 : ∀ d ∈ l2, getField d "_id" ≠ some (.oid tid)) :
    (∃ T',
      add_subtask db A tid title sid now =
        (.ok (some sid), { db with tasks := l1 ++ T' :: l2 }) ∧
      getField T' "subtasks" =
        some (.arr (subs ++ [.doc (subtaskDoc sid title false)])) ∧
      getField T' "updated_at" = some (.str now) ∧
      getField T' "_id" = some (.oid tid) ∧
      getField T' "user_id" = some (.str A)) ∧
    (∀ B, B ≠ A →
      add_subtask db B tid title sid now =
        (.err "Task not found (or not yours)", db) ∧
      edit_subtask db B tid sid2 tOpt dOpt now =
        (.err "Task not found (or not yours)", db) ∧
      delete_subtask db B tid sid2 now =
        (.err "Task not found (or not yours)", db)) ∧
    (∀ tid2, (∀ d ∈ db.tasks, getField d "_id" ≠ some (.oid tid2)) →
      add_subtask db A tid2 title sid now =
        (.err "Task not found (or not yours)", db) ∧
      edit_subtask db A tid2 sid2 tOpt dOpt now =
        (.err "Task not found (or not yours)", db) ∧
      delete_subtask db A tid2 sid2 now =
        (.err "Task not found (or not yours)", db)) := by
  have hpT : taskOwnerFilter tid A T = true :=
    (taskOwnerFilter_iff tid A T).mpr ⟨hid, howner⟩
  have hpl1 : ∀ d ∈ l1, taskOwnerFilter tid A d = false :=
    fun d hd => taskOwnerFilter_false_of_id d tid A (hl1 d hd)
  have hpl2 : ∀ d ∈ l2, taskOwnerFilter tid A d = false :=
    fun d hd => taskOwnerFilter_false_of_id d tid A (hl2 d hd)
  refine ⟨?_, ?_, ?_⟩
  · -- add on the owned task
    refine ⟨setField (pushSubtask T (subtaskDoc sid title false))
      "updated_at" (.str now), ?_, ?_, ?_, ?_, ?_⟩
    · unfold add_subtask
      rw [hparse]
      dsimp only
      rw [hsplit, find?_middle l1 l2 T _ hpl1 hpT,
        map_scoped l1 l2 T (taskOwnerFilter tid A) _ hpl1 hpl2 hpT]
    · have hpush : pushSubtask T (subtaskDoc sid title false) =
          setField T "subtasks"
            (.arr (subs ++ [.doc (subtaskDoc sid title false)])) := by
        unfold pushSubtask
        rw [hsubs]
      rw [hpush, getField_setField_ne _ "updated_at" "subtasks" _ (by decide)]
      exact getField_setField_self T "subtasks" _
    · exact getField_setField_self _ "updated_at" _
    · rw [getField_setField_ne _ "updated_at" "_id" _ (by decide)]
      unfold pushSubtask
      rw [hsubs, getField_setField_ne _ "subtasks" "_id" _ (by decide)]
      exact hid
    · rw [getField_setField_ne _ "updated_at" "user_id" _ (by decide)]
      unfold pushSubtask
      rw [hsubs, getField_setField_ne _ "subtasks" "user_id" _ (by decide)]
      exact howner
  · -- foreign owner
    intro B hBA
    have hall : ∀ d ∈ db.tasks, taskOwnerFilter tid B d = false := by
      intro d hd
      rw [hsplit] at hd
      rcases List.mem_append.mp hd with hdl1 | hdc
      · exact taskOwnerFilter_false_of_id d tid B (hl1 d hdl1)
      · rcases List.mem_cons.mp hdc with rfl | hdl2
        · cases hf : taskOwnerFilter tid B d
          · rfl
          · exfalso
            have hduid := ((taskOwnerFilter_iff tid B d).mp hf).2
            rw [howner] at hduid
            exact hBA (Value.str.inj (Option.some.inj hduid)).symm
        · exact taskOwnerFilter_false_of_id d tid B (hl2 d hdl2)
    have hsubAll : ∀ d ∈ db.tasks,
        (taskOwnerFilter tid B d &&
          (match getField d "subtasks" with
           | some (.arr xs) => xs.any (subtaskHasId sid2)
           | _ => false)) = false := by
      intro d hd
      rw [hall d hd, Bool.false_and]
    refine ⟨?_, ?_, ?_⟩
    · unfold add_subtask
      rw [hparse]
      dsimp only
      rw [find?_nomatch db.tasks _ hall]
    · unfold edit_subtask
      rw [hparse]
      dsimp only
      rw [find?_nomatch db.tasks _ hsubAll]
    · unfold delete_subtask
      rw [hparse]
      dsimp only
      rw [find?_nomatch db.tasks _ hsubAll]
  · -- nonexistent identity
    intro tid2 hnone
    cases hp : parseObjectId tid2 with
    | none =>
      refine ⟨?_, ?_, ?_⟩
      · unfold add_subtask
        rw [hp]
      · unfold edit_subtask
        rw [hp]
      · unfold delete_subtask
        rw [hp]
    | some o =>
      have ho : o = tid2 := parseObjectId_eq hp
      subst ho
      have hall : ∀ d ∈ db.tasks, taskOwnerFilter o A d = false :=
        fun d hd => taskOwnerFilter_false_of_id d o A (hnone d hd)
      have hsubAll : ∀ d ∈ db.tasks,
          (taskOwnerFilter o A d &&
            (match getField d "subtasks" with
             | some (.arr xs) => xs.any (subtaskHasId sid2)
             | _ => false)) = false := by
        intro d hd
        rw [hall d hd, Bool.false_and]
      refine ⟨?_, ?_, ?_⟩
      · unfold add_subtask
        rw [hp]
        dsimp only
        rw [find?_nomatch db.tasks _ hall]
      · unfold edit_subtask
        rw [hp]
        dsimp only
        rw [find?_nomatch db.tasks _ hsubAll]
      · unfold delete_subtask
        rw [hp]
        dsimp only
        rw [find?_nomatch db.tasks _ hsubAll]

/-- Witness for C4 on a one-task store: A's add succeeds and appends, B's
operations fail and leave the store unchanged. -/
theorem subtask_ops_ownership_scoped_witness :
    (∃ T',
      add_subtask
          ⟨[], [[("_id", .oid "cccccccccccccccccccccccc"),
                 ("user_id", .str "A"), ("subtasks", .arr [])]], []⟩
          "A" "cccccccccccccccccccccccc" "st" "sid1" "NOW" =
        (.ok (some "sid1"), ⟨[], [T'], []⟩) ∧
      getField T' "subtasks" =
        some (.arr [.doc (subtaskDoc "sid1" "st" false)]) ∧
      getField T' "updated_at" = some (.str "NOW") ∧
      getField T' "_id" = some (.oid "cccccccccccccccccccccccc") ∧
      getField T' "user_id" = some (.str "A")) ∧
    add_subtask
        ⟨[], [[("_id", .oid "cccccccccccccccccccccccc"),
               ("user_id", .str "A"), ("subtasks", .arr [])]], []⟩
        "B" "cccccccccccccccccccccccc" "st" "sid1" "NOW" =
      (.err "Task not found (or not yours)",
       ⟨[], [[("_id", .oid "cccccccccccccccccccccccc"),
              ("user_id", .str "A"), ("subtasks", .arr [])]], []⟩) ∧
    edit_subtask
        ⟨[], [[("_id", .oid "cccccccccccccccccccccccc"),
               ("user_id", .str "A"), ("subtasks", .arr [])]], []⟩
        "B" "cccccccccccccccccccccccc" "sid2" none none "NOW" =
      (.err "Task not found (or not yours)",
       ⟨[], [[("_id", .oid "cccccccccccccccccccccccc"),
              ("user_id", .str "A"), ("subtasks", .arr [])]], []⟩) ∧
    delete_subtask
        ⟨[], [[("_id", .oid "cccccccccccccccccccccccc"),
               ("user_id", .str "A"), ("subtasks", .arr [])]], []⟩
        "B" "cccccccccccccccccccccccc" "sid2" "NOW" =
      (.err "Task not found (or not yours)",
       ⟨[], [[("_id", .oid "cccccccccccccccccccccccc"),
              ("user_id", .str "A"), ("subtasks", .arr [])]], []⟩) := by
  have h := subtask_ops_ownership_scoped
    ⟨[], [[("_id", .oid "cccccccccccccccccccccccc"),
           ("user_id", .str "A"), ("subtasks", .arr [])]], []⟩
    "A" "cccccccccccccccccccccccc"
    [("_id", .oid "cccccccccccccccccccccccc"),
     ("user_id", .str "A"), ("subtasks", .arr [])]
    [] [] [] "st" "sid1" "NOW" "sid2" none none
    rfl (by decide) rfl rfl rfl (by simp) (by simp)
  exact ⟨h.1, (h.2.1 "B" (by decide)).1, (h.2.1 "B" (by decide)).2.1,
    (h.2.1 "B" (by decide)).2.2⟩

/-- C5: deleting an attachment whose metadata is recorded for the
authenticated owner succeeds for EVERY state of the blob store (`disk` is
universally quantified, so a missing blob is not fatal), removes the
metadata record, and clears the `attachment` pointer on every task of this
owner referencing the file identity, leaving those tasks with a null
attachment field and leaving every non-referencing task in place. -/
theorem delete_file_cross_entity_cleanup (db : DB) (disk : List String)
    (tok fid : String) (U R : Doc) (f1 f2 : List Doc)
    (hauth : get_user_by_token db tok = some U)
    (hfiles : db.files = f1 ++ R :: f2)
    (hf1 : ∀ d ∈ f1, fileRecFilter (userIdString U) fid d = false)
    (hR : fileRecFilter (userIdString U) fid R = true)
    (hf2 : ∀ d ∈ f2, fileRecFilter (userIdString U) fid d = false) :
    ∃ db' disk',
      delete_file db disk fid tok = (.okSimple, db', disk') ∧
      get_file_record db' (userIdString U) fid = none ∧
      db'.users = db.users ∧
      (∀ T ∈ db.tasks, attachmentRefFilter (userIdString U) fid T = true →
        setField T "attachment" .null ∈ db'.tasks ∧
        getField (setField T "attachment" Value.null) "attachment" =
          some .null) ∧
      (∀ T' ∈ db'.tasks,
        attachmentRefFilter (userIdString U) fid T' = false) ∧
      (∀ T ∈ db.tasks, attachmentRefFilter (userIdString U) fid T = false →
        T ∈ db'.tasks) := by
  have hrec : get_file_record db (userIdString U) fid = some R := by
    unfold get_file_record findOne
    rw [hfiles]
    exact find?_middle f1 f2 R _ hf1 hR
  refine ⟨{ users := db.users,
            tasks := db.tasks.map (fun t =>
              if attachmentRefFilter (userIdString U) fid t = true then
                applySet t [("attachment", Value.null)]
              else t),
            files := f1 ++ f2 },
    (match getField R "path" with
     | some (.str p) =>
       if p ≠ "" && disk.contains p then disk.filter (fun q => q != p)
       else disk
     | _ => disk), ?_, ?_, rfl, ?_, ?_, ?_⟩
  · unfold delete_file
    rw [hauth]
    dsimp only
    rw [hrec]
    dsimp only
    unfold delete_file_record
    rw [hfiles, deleteOne_split f1 f2 R _ hf1 hR]
    rfl
  · unfold get_file_record findOne
    apply find?_nomatch
    intro d hd
    rcases List.mem_append.mp hd with h1 | h2
    · exact hf1 d h1
    · exact hf2 d h2
  · intro T hT hmatch
    constructor
    · have hmem := List.mem_map_of_mem (fun t =>
        if attachmentRefFilter (userIdString U) fid t = true then
          applySet t [("attachment", Value.null)] else t) hT
      simpa [hmatch] using hmem
    · exact getField_setField_self T "attachment" Value.null
  · intro T' hT'
    obtain ⟨x, hx, hxeq⟩ := List.mem_map.mp hT'
    by_cases hfx : attachmentRefFilter (userIdString U) fid x = true
    · have hg : T' = setField x "attachment" Value.null := by
        rw [← hxeq, hfx]
        rfl
      rw [hg]
      unfold attachmentRefFilter
      rw [getField_setField_self x "attachment" Value.null]
      exact Bool.and_false _
    · rw [Bool.not_eq_true] at hfx
      have hg : T' = x := by rw [← hxeq, hfx]; rfl
      rw [hg]
      exact hfx
  · intro T hT hfalse
    have hmem := List.mem_map_of_mem (fun t =>
      if attachmentRefFilter (userIdString U) fid t = true then
        applySet t [("attachment", Value.null)] else t) hT
    simpa [hfalse] using hmem

/-- Witness for C5: one user, one referencing task, one file record, and an
empty blob store (the blob is already missing from disk). -/
theorem delete_file_cross_entity_cleanup_witness :
    ∃ db' disk',
      delete_file
          ⟨[[("_id", .oid "dddddddddddddddddddddddd"),
             ("username", .str "alice"), ("token", .str "TK")]],
           [[("_id", .oid "eeeeeeeeeeeeeeeeeeeeeeee"),
             ("user_id", .str "dddddddddddddddddddddddd"),
             ("attachment", .doc [("file_id", .str "F1")])]],
           [[("user_id", .str "dddddddddddddddddddddddd"),
             ("file_id", .str "F1"), ("path", .str "uploads/x")]]⟩
          [] "F1" "TK" = (.okSimple, db', disk') ∧
      get_file_record db' "dddddddddddddddddddddddd" "F1" = none ∧
      db'.users =
        [[("_id", .oid "dddddddddddddddddddddddd"),
          ("username", .str "alice"), ("token", .str "TK")]] ∧
      (∀ T ∈ [[("_id", .oid "eeeeeeeeeeeeeeeeeeeeeeee"),
               ("user_id", .str "dddddddddddddddddddddddd"),
               ("attachment", .doc [("file_id", .str "F1")])]],
        attachmentRefFilter "dddddddddddddddddddddddd" "F1" T = true →
        setField T "attachment" .null ∈ db'.tasks ∧
        getField (setField T "attachment" Value.null) "attachment" =
          some .null) ∧
      (∀ T' ∈ db'.tasks,
        attachmentRefFilter "dddddddddddddddddddddddd" "F1" T' = false) ∧
      (∀ T ∈ [[("_id", .oid "eeeeeeeeeeeeeeeeeeeeeeee"),
               ("user_id", .str "dddddddddddddddddddddddd"),
               ("attachment", .doc [("file_id", .str "F1")])]],
        attachmentRefFilter "dddddddddddddddddddddddd" "F1" T = false →
        T ∈ db'.tasks) :=
  delete_file_cross_entity_cleanup
    ⟨[[("_id", .oid "dddddddddddddddddddddddd"),
       ("username", .str "alice"), ("token", .str "TK")]],
     [[("_id", .oid "eeeeeeeeeeeeeeeeeeeeeeee"),
       ("user_id", .str "dddddddddddddddddddddddd"),
       ("attachment", .doc [("file_id", .str "F1")])]],
     [[("user_id", .str "dddddddddddddddddddddddd"),
       ("file_id", .str "F1"), ("path", .str "uploads/x")]]⟩
    [] "TK" "F1"
    [("_id", .oid "dddddddddddddddddddddddd"),
     ("username", .str "alice"), ("token", .str "TK")]
    [("user_id", .str "dddddddddddddddddddddddd"),
     ("file_id", .str "F1"), ("path", .str "uploads/x")]
    [] [] rfl rfl (by simp) rfl (by simp)

/-- Every stored task's `priority` field (when present) is an integer in
`[1, 5]`. -/
def PriorityInv (db : DB) : Prop :=
  ∀ t ∈ db.tasks, ∀ v, getField t "priority" = some v →
    ∃ p : Int, v = .int p ∧ 1 ≤ p ∧ p ≤ 5

/-- Every stored task's `priority` field (when present) is null or an
integer in `[1, 5]` — the invariant updates actually maintain, since an
explicitly-null priority in an update payload is persisted as null. -/
def PriorityNullInv (db : DB) : Prop :=
  ∀ t ∈ db.tasks, ∀ v, getField t "priority" = some v →
    v = .null ∨ ∃ p : Int, v = .int p ∧ 1 ≤ p ∧ p ≤ 5

theorem optEntry_key {α : Type} (k k' : String) (f : α → Value)
    (o : Option (Option α)) (v : Value) (h : (k', v) ∈ optEntry k f o) :
    k' = k ∧ ((o = some none ∧ v = .null) ∨
      ∃ a, o = some (some a) ∧ v = f a) := by
  cases o with
  | none => simp [optEntry] at h
  | some oa =>
    cases oa with
    | none =>
      simp only [optEntry, List.mem_singleton, Prod.mk.injEq] at h
      exact ⟨h.1, Or.inl ⟨rfl, h.2⟩⟩
    | some a =>
      simp only [optEntry, List.mem_singleton, Prod.mk.injEq] at h
      exact ⟨h.1, Or.inr ⟨a, rfl, h.2⟩⟩

/-- The only ways `priority` appears in an `exclude_unset` dump: as the
null of an explicitly-null field, or as the provided integer. -/
theorem dump_set_priority (r : TaskUpdate) (v : Value)
    (h : ("priority", v) ∈ r.dump_set) :
    (r.priority = some none ∧ v = .null) ∨
    ∃ p : Int, v = .int p ∧ r.priority = some (some p) := by
  unfold TaskUpdate.dump_set at h
  rcases List.mem_append.mp h with h | h
  rotate_left
  · exact absurd (optEntry_key _ _ _ _ _ h).1 (by decide)
  rcases List.mem_append.mp h with h | h
  rotate_left
  · exact absurd (optEntry_key _ _ _ _ _ h).1 (by decide)
  rcases List.mem_append.mp h with h | h
  rotate_left
  · exact absurd (optEntry_key _ _ _ _ _ h).1 (by decide)
  rcases List.mem_append.mp h with h | h
  rotate_left
  · exact absurd (optEntry_key _ _ _ _ _ h).1 (by decide)
  rcases List.mem_append.mp h with h | h
  rotate_left
  · exact absurd (optEntry_key _ _ _ _ _ h).1 (by decide)
  rcases List.mem_append.mp h with h | h
  rotate_left
  · exact absurd (optEntry_key _ _ _ _ _ h).1 (by decide)
  rcases List.mem_append.mp h with h | h
  rotate_left
  · exact absurd (optEntry_key _ _ _ _ _ h).1 (by decide)
  rcases List.mem_append.mp h with h | h
  · exact absurd (optEntry_key _ _ _ _ _ h).1 (by decide)
  · rcases (optEntry_key _ _ _ _ _ h).2 with ⟨ho, hv⟩ | ⟨a, ho, hv⟩
    · exact Or.inl ⟨ho, hv⟩
    · exact Or.inr ⟨a, hv, ho⟩

/-- A validated update payload carries a priority in `[1, 5]` whenever it
carries a non-null one at all. -/
theorem validate_task_update_priority (r : TaskUpdate)
    (h : validate_task_update r = true) (p : Int)
    (hp : r.priority = some (some p)) : 1 ≤ p ∧ p ≤ 5 := by
  unfold validate_task_update at h
  rw [hp] at h
  simp only [Bool.and_eq_true, decide_eq_true_eq] at h
  exact h.1.1.2

/-- An out-of-range integer priority value makes `TaskCreate` validation
fail. -/
theorem validate_task_create_bad_priority (raw : RawTaskCreate) (p : Int)
    (hp : raw.priority = some (some p)) (hout : p < 1 ∨ 5 < p) :
    validate_task_create raw = none := by
  unfold validate_task_create
  cases htitle : raw.title with
  | none => rfl
  | some t =>
    dsimp only
    split
    · rw [hp]
      dsimp only
      rw [if_neg (by rcases hout with h | h <;> omega)]
    · rfl

/-- An explicitly-null priority makes `TaskCreate` validation fail:
`priority` is a non-optional `int` field. -/
theorem validate_task_create_null_priority (raw : RawTaskCreate)
    (hp : raw.priority = some none) :
    validate_task_create raw = none := by
  unfold validate_task_create
  cases htitle : raw.title with
  | none => rfl
  | some t =>
    dsimp only
    split
    · rw [hp]
    · rfl

/-- An out-of-range integer priority value makes `TaskUpdate` validation
fail. -/
theorem validate_task_update_bad_priority (r : TaskUpdate) (p : Int)
    (hp : r.priority = some (some p)) (hout : p < 1 ∨ 5 < p) :
    validate_task_update r = false := by
  unfold validate_task_update
  rw [hp]
  have hd : decide (1 ≤ p ∧ p ≤ 5) = false :=
    decide_eq_false (by rcases hout with h | h <;> omega)
  dsimp only
  rw [hd]
  simp

/-- The checked tail of `TaskCreate` validation fixes the priority. -/
theorem taskCreateChecked_priority (r : RawTaskCreate) (t : String)
    (q : Int) (v : TaskCreate) (h : taskCreateChecked r t q = some v) :
    v.priority = q := by
  unfold taskCreateChecked at h
  split at h
  · have hv := Option.some.inj h
    subst hv
    rfl
  · exact absurd h (by simp)

/-- A validated create payload has priority in `[1, 5]`, defaulting to 3. -/
theorem validate_task_create_priority (raw : RawTaskCreate) (v : TaskCreate)
    (h : validate_task_create raw = some v) :
    (1 ≤ v.priority ∧ v.priority ≤ 5) ∧
    (raw.priority = none → v.priority = 3) := by
  unfold validate_task_create at h
  cases htitle : raw.title with
  | none => rw [htitle] at h; exact absurd h (by simp)
  | some t =>
    rw [htitle] at h
    dsimp only at h
    split at h
    · cases hp : raw.priority with
      | none =>
        rw [hp] at h
        have h3 := taskCreateChecked_priority raw t 3 v h
        exact ⟨by omega, fun _ => h3⟩
      | some oq =>
        cases oq with
        | none =>
          rw [hp] at h
          exact absurd h (by simp)
        | some q =>
          rw [hp] at h
          dsimp only at h
          split at h
          · have hq := taskCreateChecked_priority raw t q v h
            rw [hq]
            exact ⟨by omega, fun hcon => absurd hcon (by simp)⟩
          · exact absurd h (by simp)
    · exact absurd h (by simp)

/-- The task document inserted by `create_task` keeps the payload's
priority field. -/
theorem create_task_priority_field (db : DB) (uid : String) (td : Doc)
    (i now : String) (v : Value) (h : getField td "priority" = some v) :
    ∃ nd, (create_task db uid td i now).2.tasks = db.tasks ++ [nd] ∧
      (create_task db uid td i now).2.users = db.users ∧
      getField nd "priority" = some v := by
  have h0 : getField (setField td "user_id" (.str uid)) "priority" =
      some v := by
    rw [getField_setField_ne td "user_id" "priority" _ (by decide)]
    exact h
  have h1 := getField_setDefault_present _ "done" "priority"
    (.bool false) v h0
  have h2 := getField_setDefault_present _ "created_at" "priority"
    (.str now) v h1
  have h3 := getField_setDefault_present _ "updated_at" "priority"
    (.str now) v h2
  have h4 := getField_setDefault_present _ "_id" "priority"
    (.oid i) v h3
  exact ⟨_, rfl, rfl, h4⟩

/-- `edit_task` applied with a validated update payload preserves the
null-or-in-range priority invariant of the store (the strict `[1, 5]`
invariant is NOT preserved: an explicitly-null priority is applied). -/
theorem edit_task_priority_inv (db : DB) (uid tid now : String)
    (r : TaskUpdate) (hval : validate_task_update r = true)
    (hinv : PriorityNullInv db) :
    PriorityNullInv (edit_task db uid tid (TaskUpdate.dump_set r) now).2 := by
  unfold edit_task
  cases hp : parseObjectId tid with
  | none => exact hinv
  | some o =>
    dsimp only
    have hb : PriorityNullInv { db with tasks :=
        (updateOne db.tasks (taskOwnerFilter o uid)
          (setField (popKey (popKey (TaskUpdate.dump_set r) "user_id")
            "_id") "updated_at" (.str now))).1 } := by
      intro t ht v hv
      rcases updateOne_mem db.tasks (taskOwnerFilter o uid) _ t ht with
        hold | ⟨d, hd, rfl⟩
      · exact hinv t hold v hv
      · rcases getField_applySet_cases _ d "priority" with hsame | ⟨w, hwmem, hg⟩
        · rw [hsame] at hv
          exact hinv d hd v hv
        · have hvw : v = w := Option.some.inj (hv.symm.trans hg)
          subst hvw
          rcases mem_setField _ "updated_at" (.str now) _ hwmem with
            heq | hmem1
          · have hk : ("priority" : String) = "updated_at" :=
              congrArg Prod.fst heq
            exact absurd hk (by decide)
          · have hmem0 := mem_popKey _ "user_id"
              ("priority", v) (mem_popKey _ "_id" ("priority", v) hmem1)
            rcases dump_set_priority r v hmem0 with ⟨-, hvnull⟩ | ⟨q, hq, hqp⟩
            · exact Or.inl hvnull
            · obtain ⟨h1, h5⟩ := validate_task_update_priority r hval q hqp
              exact Or.inr ⟨q, hq, h1, h5⟩
    split
    · exact hb
    · exact hb

/-- C10 (counterexample): an update request whose priority is explicitly
null passes pydantic validation (`priority` is `Optional[int]`, and
`ge`/`le` apply only to the non-null branch), survives
`model_dump(exclude_unset=True)` as `{"priority": null}`, reaches the
store, and is applied — the persisted task's priority becomes null, which
is outside the integer range `[1, 5]`, refuting the claim that such a
request is rejected before any store interaction and that every persisted
task keeps a priority in `[1, 5]`. The store satisfied the claimed
invariant before the call. -/
theorem update_null_priority_persists :
    validate_task_update { priority := some none } = true ∧
    TaskUpdate.dump_set { priority := some none } =
      [("priority", Value.null)] ∧
    PriorityInv
      ⟨[[("_id", .oid "abababababababababababab"),
         ("username", .str "bob"), ("token", .str "TK")]],
       [[("_id", .oid "ffffffffffffffffffffffff"),
         ("user_id", .str "abababababababababababab"),
         ("priority", .int 3)]], []⟩ ∧
    edit_task_endpoint
      ⟨[[("_id", .oid "abababababababababababab"),
         ("username", .str "bob"), ("token", .str "TK")]],
       [[("_id", .oid "ffffffffffffffffffffffff"),
         ("user_id", .str "abababababababababababab"),
         ("priority", .int 3)]], []⟩
      "ffffffffffffffffffffffff" { priority := some none } "TK" "NOW" =
      (.okEdit 1,
       ⟨[[("_id", .oid "abababababababababababab"),
          ("username", .str "bob"), ("token", .str "TK")]],
        [[("_id", .oid "ffffffffffffffffffffffff"),
          ("user_id", .str "abababababababababababab"),
          ("priority", Value.null),
          ("updated_at", .str "NOW")]], []⟩) ∧
    getField
      [("_id", .oid "ffffffffffffffffffffffff"),
       ("user_id", .str "abababababababababababab"),
       ("priority", Value.null),
       ("updated_at", .str "NOW")] "priority" = some Value.null ∧
    ¬ PriorityInv
      ⟨[[("_id", .oid "abababababababababababab"),
         ("username", .str "bob"), ("token", .str "TK")]],
       [[("_id", .oid "ffffffffffffffffffffffff"),
         ("user_id", .str "abababababababababababab"),
         ("priority", Value.null),
         ("updated_at", .str "NOW")]], []⟩ := by
  refine ⟨rfl, rfl, ?_, rfl, rfl, ?_⟩
  · intro t ht v hv
    have hteq := List.mem_singleton.mp ht
    subst hteq
    have hv3 : v = Value.int 3 := Option.some.inj hv.symm
    exact ⟨3, hv3, by omega, by omega⟩
  · intro hcl
    obtain ⟨p, hp, -⟩ := hcl
      [("_id", .oid "ffffffffffffffffffffffff"),
       ("user_id", .str "abababababababababababab"),
       ("priority", Value.null),
       ("updated_at", .str "NOW")]
      (List.mem_singleton.mpr rfl) Value.null rfl
    exact Value.noConfusion hp

/-- C10 (amended): an INTEGER priority outside `[1, 5]` is rejected by the
pydantic boundary of both endpoints before any store interaction, and a
create request with an explicitly-null priority is likewise rejected
(`TaskCreate.priority` is a non-optional `int`); a validated create
payload carries a priority in `[1, 5]` (3 when not supplied), the
document persisted by a successful create carries that in-range priority,
and create preserves the strict `[1, 5]` invariant. Updates, however,
accept an explicitly-null priority and persist it as null, so the update
endpoint preserves only the weaker invariant that every persisted
priority is null or an integer in `[1, 5]`. -/
theorem priority_range_amended (db : DB) (raw rawN : RawTaskCreate)
    (r : TaskUpdate) (tok tid i now : String) (p : Int) :
    (raw.priority = some (some p) → p < 1 ∨ 5 < p →
      validate_task_create raw = none ∧
      create_task_endpoint db tok raw i now = (.validationError, db)) ∧
    (rawN.priority = some none →
      validate_task_create rawN = none ∧
      create_task_endpoint db tok rawN i now = (.validationError, db)) ∧
    (r.priority = some (some p) → p < 1 ∨ 5 < p →
      validate_task_update r = false ∧
      edit_task_endpoint db tid r tok now = (.validationError, db)) ∧
    (∀ v, validate_task_create raw = some v →
      (1 ≤ v.priority ∧ v.priority ≤ 5) ∧
      (raw.priority = none → v.priority = 3)) ∧
    (∀ t db', create_task_endpoint db tok raw i now = (.okCreate t, db') →
      ∃ nd q, db'.tasks = db.tasks ++ [nd] ∧
        getField nd "priority" = some (.int q) ∧ 1 ≤ q ∧ q ≤ 5 ∧
        (raw.priority = none → q = 3)) ∧
    (PriorityInv db → ∀ res db',
      create_task_endpoint db tok raw i now = (res, db') →
      PriorityInv db') ∧
    (PriorityNullInv db → ∀ res db',
      edit_task_endpoint db tid r tok now = (res, db') →
      PriorityNullInv db') := by
  refine ⟨?_, ?_, ?_, ?_, ?_, ?_, ?_⟩
  · intro hp hout
    have hv := validate_task_create_bad_priority raw p hp hout
    refine ⟨hv, ?_⟩
    unfold create_task_endpoint
    rw [hv]
  · intro hp
    have hv := validate_task_create_null_priority rawN hp
    refine ⟨hv, ?_⟩
    unfold create_task_endpoint
    rw [hv]
  · intro hp hout
    have hv := validate_task_update_bad_priority r p hp hout
    refine ⟨hv, ?_⟩
    unfold edit_task_endpoint
    rw [hv]
    rfl
  · exact fun v hv => validate_task_create_priority raw v hv
  · intro t db' hend
    unfold create_task_endpoint at hend
    cases hval : validate_task_create raw with
    | none =>
      rw [hval] at hend
      injection hend with h1 h2
      exact ApiResult.noConfusion h1
    | some v =>
      rw [hval] at hend
      dsimp only at hend
      cases hu : get_user_by_token db tok with
      | none =>
        rw [hu] at hend
        injection hend with h1 h2
        exact ApiResult.noConfusion h1
      | some user =>
        rw [hu] at hend
        dsimp only at hend
        have hdb : db' = (create_task db (userIdString user)
            v.model_dump i now).2 := by
          injection hend with h1 h2
          exact h2.symm
        obtain ⟨nd, hts, hus, hnd⟩ := create_task_priority_field db
          (userIdString user) v.model_dump i now (.int v.priority) rfl
        obtain ⟨⟨hge, hle⟩, hdef⟩ := validate_task_create_priority raw v hval
        exact ⟨nd, v.priority, hdb ▸ hts, hnd, hge, hle, hdef⟩
  · intro hinv res db' hend
    unfold create_task_endpoint at hend
    cases hval : validate_task_create raw with
    | none =>
      rw [hval] at hend
      injection hend with h1 h2
      subst h2
      exact hinv
    | some v =>
      rw [hval] at hend
      dsimp only at hend
      cases hu : get_user_by_token db tok with
      | none =>
        rw [hu] at hend
        injection hend with h1 h2
        subst h2
        exact hinv
      | some user =>
        rw [hu] at hend
        dsimp only at hend
        injection hend with h1 h2
        obtain ⟨nd, hts, hus, hnd⟩ := create_task_priority_field db
          (userIdString user) v.model_dump i now (.int v.priority) rfl
        obtain ⟨⟨hge, hle⟩, -⟩ := validate_task_create_priority raw v hval
        subst h2
        intro x hx w hw
        rw [hts] at hx
        rcases List.mem_append.mp hx with hold | hnew
        · exact hinv x hold w hw
        · have hxnd : x = nd := List.mem_singleton.mp hnew
          subst hxnd
          rw [hnd] at hw
          exact ⟨v.priority, (Option.some.inj hw).symm, hge, hle⟩
  · intro hinv res db' hend
    unfold edit_task_endpoint at hend
    cases hval : validate_task_update r with
    | false =>
      rw [hval] at hend
      dsimp only at hend
      injection hend with h1 h2
      subst h2
      exact hinv
    | true =>
      rw [hval] at hend
      dsimp only at hend
      cases hu : get_user_by_token db tok with
      | none =>
        rw [hu] at hend
        injection hend with h1 h2
        subst h2
        exact hinv
      | some user =>
        rw [hu] at hend
        dsimp only at hend
        cases hemp : (TaskUpdate.dump_set r).isEmpty with
        | true =>
          rw [hemp] at hend
          injection hend with h1 h2
          subst h2
          exact hinv
        | false =>
          rw [hemp] at hend
          have hall := edit_task_priority_inv db (userIdString user) tid
            now r hval hinv
          rcases hedit : edit_task db (userIdString user) tid
            (TaskUpdate.dump_set r) now with ⟨er, db2⟩
          rw [hedit] at hend hall
          cases er with
          | err m =>
            injection hend with h1 h2
            subst h2
            exact hall
          | ok a b =>
            injection hend with h1 h2
            subst h2
            exact hall

/-- Witness for the amended C10: integer priority 7 is rejected on create
and update, and a null priority is rejected on create, each with the
store untouched. -/
theorem priority_range_amended_witness :
    validate_task_create
      { title := some "t", priority := some (some 7) } = none ∧
    create_task_endpoint ⟨[], [], []⟩ "tok"
      { title := some "t", priority := some (some 7) } "i" "now" =
      (.validationError, ⟨[], [], []⟩) ∧
    validate_task_create
      { title := some "t", priority := some none } = none ∧
    create_task_endpoint ⟨[], [], []⟩ "tok"
      { title := some "t", priority := some none } "i" "now" =
      (.validationError, ⟨[], [], []⟩) ∧
    validate_task_update { priority := some (some 7) } = false ∧
    edit_task_endpoint ⟨[], [], []⟩ "tid" { priority := some (some 7) }
      "tok" "now" = (.validationError, ⟨[], [], []⟩) := by
  have h := priority_range_amended ⟨[], [], []⟩
    { title := some "t", priority := some (some 7) }
    { title := some "t", priority := some none }
    { priority := some (some 7) } "tok" "tid" "i" "now" 7
  exact ⟨(h.1 rfl (by omega)).1, (h.1 rfl (by omega)).2,
    (h.2.1 rfl).1, (h.2.1 rfl).2,
    (h.2.2.1 rfl (by omega)).1, (h.2.2.1 rfl (by omega)).2⟩

end WebPlanner
